import Mathlib

/-!
Verification of the LearnFlow chatbot backend (server.js and its utility
modules): a shallow embedding of the request orchestrator, rate limiter,
context extractors (regular-expression matchers), resource search and
prompt composition, together with theorems settling the specification
claims about them.

Strings are modelled by Lean `String`; all character-level operations are
defined by structural recursion over `String.data` so that every
definition evaluates inside the kernel.  JS `toLowerCase`, `\w`, `\s` are
modelled over ASCII, which covers all vocabularies used by the program.
-/

namespace LearnFlow

/-- JS regex word character `\w`: ASCII letter, digit, or underscore. -/
def isWordChar (c : Char) : Bool := c.isAlpha || c.isDigit || c == '_'

/-- JS regex whitespace `\s`, restricted to the ASCII whitespace characters
(space, tab, newline, carriage return, vertical tab, form feed). -/
def isSpaceChar (c : Char) : Bool :=
  c == ' ' || c == '\t' || c == '\n' || c == '\r' ||
  c == Char.ofNat 11 || c == Char.ofNat 12

/-- Character class `[A-Za-z]` (Lean's `Char.isAlpha` is exactly ASCII letters). -/
def isLetterAZ (c : Char) : Bool := c.isAlpha

/-- Character class `\d` (ASCII digits 0-9). -/
def isDigit09 (c : Char) : Bool := c.isDigit

/-- ASCII lower-casing of a string, modelling JS `String.prototype.toLowerCase`
on the ASCII fragment. -/
def lowerStr (s : String) : String := String.mk (s.data.map Char.toLower)

/-- Boolean prefix test on character lists. -/
def isPrefixL : List Char → List Char → Bool
  | [], _ => true
  | _ :: _, [] => false
  | p :: ps, c :: cs => p == c && isPrefixL ps cs

/-- Boolean substring test: does `needle` occur contiguously in the second list? -/
def isSubL (needle : List Char) : List Char → Bool
  | [] => isPrefixL needle []
  | c :: cs => isPrefixL needle (c :: cs) || isSubL needle cs

/-- JS `hay.includes(needle)`. -/
def jsIncludes (hay needle : String) : Bool := isSubL needle.data hay.data

/-- JS `String.prototype.trim` (ASCII whitespace). -/
def jsTrim (s : String) : String :=
  String.mk (((s.data.dropWhile isSpaceChar).reverse.dropWhile isSpaceChar).reverse)

/-- JS `s.startsWith(pre)`. -/
def jsStartsWith (s pre : String) : Bool := isPrefixL pre.data s.data

/-- Split a character list at every occurrence of `sep` (JS `String.prototype.split`
with a single-character separator). -/
def splitOnCharL (sep : Char) : List Char → List (List Char)
  | [] => [[]]
  | c :: cs =>
    match splitOnCharL sep cs with
    | [] => if c == sep then [[], [c]] else [[c]]
    | h :: t => if c == sep then [] :: h :: t else (c :: h) :: t

/-- JS `s.split(' ')`. -/
def jsSplitSpace (s : String) : List String := (splitOnCharL ' ' s.data).map String.mk

/-- JS `Array.prototype.join(sep)`. -/
def joinSep (sep : String) : List String → String
  | [] => ""
  | [x] => x
  | x :: y :: xs => x ++ sep ++ joinSep sep (y :: xs)

/-- Numeric value of a digit list, modelling `parseInt` on an all-digit string. -/
def digitsVal (l : List Char) : Nat := l.foldl (fun a c => a * 10 + (c.toNat - 48)) 0

/-- Word-character test lifted to an optional character (out of range counts
as a non-word position). -/
def isWordOpt : Option Char → Bool
  | none => false
  | some c => isWordChar c

/-- JS regex word boundary `\b` between two adjacent positions. -/
def isBoundary (prev next : Option Char) : Bool := isWordOpt prev != isWordOpt next

/-- Leftmost-match driver shared by all the regex embeddings: try the match
attempt `f` at every position of the subject, left to right, threading the
previous character so that `f` can test a word boundary. -/
def scanFind {α : Type} (f : Option Char → List Char → Option α) :
    Option Char → List Char → Option α
  | _, [] => none
  | prev, c :: rest =>
    match f prev (c :: rest) with
    | some r => some r
    | none => scanFind f (some c) rest

/-- The character preceding the position reached after consuming `xs`. -/
def prevAfter (prev : Option Char) : List Char → Option Char
  | [] => prev
  | x :: xs => prevAfter (some x) xs

/-- List head as an optional character. -/
def headOpt : List Char → Option Char
  | [] => none
  | c :: _ => some c

/-- Word boundary `\b` at a position whose preceding character is a word
character (letter or digit): the next character must not be a word character. -/
def bAfter (l : List Char) : Bool := !(isWordOpt (headOpt l))

/-- Case-insensitive literal matcher: strip `pat` (compared through
`Char.toLower`) from the front of the subject, returning the remainder. -/
def stripCI : List Char → List Char → Option (List Char)
  | [], l => some l
  | _ :: _, [] => none
  | p :: ps, c :: cs => if c.toLower == p.toLower then stripCI ps cs else none

/-!
Course-code regex `/\b([A-Za-z]{2,3})\s*(\d{3})\b/i` from
`educationalUtils.extractCourseCode` and
`websiteKnowledgeUtils.extractResourceInfo`.
-/

/-- Tail of the course-code pattern after the letter group: `\s*(\d{3})\b`.
The greedy `\s*` is deterministic because `\s` and `\d` are disjoint. -/
def courseTail (rest : List Char) : Option (List Char) :=
  match rest.dropWhile isSpaceChar with
  | d1 :: d2 :: d3 :: tail =>
    if isDigit09 d1 && isDigit09 d2 && isDigit09 d3 && bAfter tail then
      some [d1, d2, d3]
    else none
  | _ => none

/-- The two-letter alternative of the greedy group `[A-Za-z]{2,3}`. -/
def courseAttempt2 : List Char → Option (List Char × List Char)
  | a :: b :: rest =>
    if isLetterAZ a && isLetterAZ b then
      match courseTail rest with
      | some ds => some ([a, b], ds)
      | none => none
    else none
  | _ => none

/-- The three-letter alternative of the greedy group `[A-Za-z]{2,3}`: it is
tried first, and any failure (fewer than three letters, or a failing tail)
backtracks to the two-letter alternative. -/
def courseAttempt3 : List Char → Option (List Char × List Char)
  | a :: b :: c :: rest =>
    if isLetterAZ a && isLetterAZ b && isLetterAZ c then
      match courseTail rest with
      | some ds => some ([a, b, c], ds)
      | none => none
    else none
  | _ => none

/-- One attempt of the course-code regex at the current position: word
boundary, then the greedy `[A-Za-z]{2,3}` (three letters first, backtracking
to two), then `\s*(\d{3})\b`.  Returns the two capture groups. -/
def courseAttempt (prev : Option Char) (l : List Char) : Option (List Char × List Char) :=
  if isBoundary prev (headOpt l) then
    match courseAttempt3 l with
    | some r => some r
    | none => courseAttempt2 l
  else none

/-- Leftmost match of the course-code regex (JS `query.match(...)`). -/
def rawCourseMatch (query : String) : Option (List Char × List Char) :=
  scanFind courseAttempt none query.data

/-- ASCII upper-casing, modelling JS `String.prototype.toUpperCase`. -/
def upperStr (s : String) : String := String.mk (s.data.map Char.toUpper)

/-- Course information record from `educationalUtils.courseDatabase`. -/
structure CourseInfo where
  name : String
  description : String
  topics : List String
  resources : List (String × String)
deriving DecidableEq

/-- The course table from `educationalUtils.courseDatabase`. -/
def courseDatabase : List (String × CourseInfo) :=
  [("CHB101",
    { name := "Chemistry Basics 101"
      description := "Introduction to basic chemistry concepts including atoms, molecules, and chemical reactions."
      topics := ["Atomic Structure", "Periodic Table", "Chemical Bonding", "Stoichiometry", "Nanomaterials", "Chemical Reactions"]
      resources := [("Lecture Notes", "/resources/chb101/lectures"), ("Lab Manuals", "/resources/chb101/labs"), ("Practice Problems", "/resources/chb101/practice")] }),
   ("ITC101",
    { name := "Introduction to Computing 101"
      description := "Fundamentals of computer science and programming."
      topics := ["Computer Architecture", "Binary and Hexadecimal", "Algorithms", "Programming Basics", "Data Structures", "Problem Solving"]
      resources := [("Lecture Notes", "/resources/itc101/lectures"), ("Programming Exercises", "/resources/itc101/exercises"), ("Reference Materials", "/resources/itc101/references")] }),
   ("CSE201",
    { name := "Computer Science Engineering 201"
      description := "Advanced topics in computer science and engineering."
      topics := ["Object-Oriented Programming", "Database Systems", "Web Development", "Software Engineering", "Network Fundamentals", "IoT Basics"]
      resources := [("Lecture Notes", "/resources/cse201/lectures"), ("Project Materials", "/resources/cse201/projects"), ("Reference Materials", "/resources/cse201/references")] })]

/-- `educationalUtils.getCourseInfo`. -/
def getCourseInfo (courseCode : String) : Option CourseInfo :=
  courseDatabase.lookup (upperStr courseCode)

/-- `educationalUtils.extractCourseCode`: leftmost course-code regex match,
groups concatenated and upper-cased, validated against the course table. -/
def extractCourseCode (query : String) : Option String :=
  match rawCourseMatch query with
  | some m =>
    let courseCode := upperStr (String.mk (m.1 ++ m.2))
    if (courseDatabase.lookup courseCode).isSome then some courseCode else none
  | none => none

/-!
Semester regex `/\b(\d)(st|nd|rd|th)?\s+sem(ester)?\b/i`, used both in
`server.js` (navigation branch) and in
`websiteKnowledgeUtils.extractResourceInfo`.
-/

/-- The `sem(ester)?\b` tail, case-insensitive, with the regex backtracking
order over the optional `(ester)?`. -/
def semWordTail (l : List Char) : Bool :=
  match stripCI "sem".data l with
  | none => false
  | some rest =>
    match stripCI "ester".data rest with
    | some rest2 => bAfter rest2 || bAfter rest
    | none => bAfter rest

/-- The `\s+sem(ester)?\b` tail.  The greedy `\s+` is deterministic because
`sem` starts with a non-space character. -/
def semSpaceTail : List Char → Bool
  | [] => false
  | c :: rest => isSpaceChar c && semWordTail (rest.dropWhile isSpaceChar)

/-- Optional ordinal suffix `(st|nd|rd|th)`, alternatives in regex order. -/
def stripOrd (l : List Char) : Option (List Char) :=
  match stripCI "st".data l with
  | some r => some r
  | none =>
    match stripCI "nd".data l with
    | some r => some r
    | none =>
      match stripCI "rd".data l with
      | some r => some r
      | none => stripCI "th".data l

/-- The pattern after the digit group: `(st|nd|rd|th)?\s+sem(ester)?\b`,
first trying the match with the ordinal consumed, then without it. -/
def semAfterDigit (l : List Char) : Bool :=
  (match stripOrd l with
   | some r => semSpaceTail r
   | none => false) || semSpaceTail l

/-- One attempt of the semester regex at the current position; returns the
value of the digit capture group (JS `parseInt(match[1])`). -/
def semAttempt (prev : Option Char) (l : List Char) : Option Nat :=
  match l with
  | [] => none
  | d :: rest =>
    if isBoundary prev (some d) && isDigit09 d && semAfterDigit rest then
      some (d.toNat - 48)
    else none

/-- Leftmost match of the semester regex, as the digit value. -/
def semesterMatch (query : String) : Option Nat :=
  scanFind semAttempt none query.data

/-!
Unit regex `/\bunit\s*(\d+)\b/i` from
`websiteKnowledgeUtils.extractResourceInfo`.
-/

/-- One attempt of the unit regex; returns `parseInt` of the digit group.
The greedy `\s*` and `\d+` are deterministic (`\s`, `\d` disjoint; shrinking
the digit run puts a digit, a word character, after the group). -/
def unitAttempt (prev : Option Char) (l : List Char) : Option Nat :=
  if isBoundary prev (headOpt l) then
    match stripCI "unit".data l with
    | none => none
    | some rest =>
      let rest2 := rest.dropWhile isSpaceChar
      let ds := rest2.takeWhile isDigit09
      if ds.isEmpty then none
      else if bAfter (rest2.dropWhile isDigit09) then some (digitsVal ds)
      else none
  else none

/-- Leftmost match of the unit regex. -/
def unitMatch (query : String) : Option Nat :=
  scanFind unitAttempt none query.data

/-!
Resource-type regex `/\b(pdf|notes|manual|assignment|lab|download)\b/i` from
`websiteKnowledgeUtils.extractResourceInfo`.
-/

/-- Alternation keywords in regex order. -/
def rtKeywords : List String := ["pdf", "notes", "manual", "assignment", "lab", "download"]

/-- Try the alternatives at the current position in order; a failing trailing
word boundary moves on to the next alternative.  Returns the keyword, which
equals JS `match[1].toLowerCase()` because the match is case-insensitive. -/
def rtTry : List String → List Char → Option String
  | [], _ => none
  | k :: ks, l =>
    match stripCI k.data l with
    | some rest => if bAfter rest then some k else rtTry ks l
    | none => rtTry ks l

/-- One attempt of the resource-type regex at the current position. -/
def rtAttempt (prev : Option Char) (l : List Char) : Option String :=
  if isBoundary prev (headOpt l) then rtTry rtKeywords l else none

/-- Leftmost match of the resource-type regex, lower-cased. -/
def resourceTypeMatch (query : String) : Option String :=
  scanFind rtAttempt none query.data

/-- Result record of `websiteKnowledgeUtils.extractResourceInfo`. -/
structure ResourceInfo where
  courseCode : Option String
  unit : Option Nat
  semester : Option Nat
  resourceType : Option String
deriving DecidableEq

/-- `websiteKnowledgeUtils.extractResourceInfo`: the four regex extractions.
Unlike `extractCourseCode`, the course code here is not validated against
the course table. -/
def extractResourceInfo (query : String) : ResourceInfo :=
  { courseCode := (rawCourseMatch query).map (fun m => upperStr (String.mk (m.1 ++ m.2)))
    unit := unitMatch query
    semester := semesterMatch query
    resourceType := resourceTypeMatch query }

/-- Record from `educationalUtils.semesterResources`. -/
structure SemResources where
  courses : List String
  path : String
deriving DecidableEq

/-- The semester table from `educationalUtils.semesterResources`; the JS
object is keyed by the digit strings "1"-"4", modelled by their values. -/
def semesterResources : List (Nat × SemResources) :=
  [(1, { courses := ["CHB101", "ITC101", "MTH101", "PHY101", "ENG101"], path := "/resources/semester1" }),
   (2, { courses := ["CHB102", "ITC102", "MTH102", "PHY102", "ENG102"], path := "/resources/semester2" }),
   (3, { courses := ["CSE201", "CSE202", "MTH201", "ECE201", "HUM201"], path := "/resources/semester3" }),
   (4, { courses := ["CSE203", "CSE204", "MTH202", "ECE202", "HUM202"], path := "/resources/semester4" })]

/-- `educationalUtils.getSemesterResources`. -/
def getSemesterResources (semester : Nat) : Option SemResources :=
  semesterResources.lookup semester

/-- Keyword list from `educationalUtils.isNavigationQuery`. -/
def navigationKeywords : List String :=
  ["where", "find", "locate", "show me", "how to access",
   "resources", "materials", "lectures", "notes", "semester"]

/-- `educationalUtils.isNavigationQuery`. -/
def isNavigationQuery (query : String) : Bool :=
  navigationKeywords.any (fun keyword => jsIncludes (lowerStr query) keyword)

/-- Recency keyword list from `webSearchUtils.needsWebSearch`. -/
def currentEventKeywords : List String :=
  ["latest", "recent", "new", "current", "today", "yesterday", "this week",
   "this month", "this year", "update", "news", "2023", "2024", "2025"]

/-- `webSearchUtils.needsWebSearch`: a recency keyword, or no reference to
any in-platform keyword. -/
def needsWebSearch (query : String) : Bool :=
  let normalizedQuery := lowerStr query
  let containsCurrentEventKeyword :=
    currentEventKeywords.any (fun keyword => jsIncludes normalizedQuery keyword)
  let isAskingAboutExternalTopic :=
    !(jsIncludes normalizedQuery "learnflow") &&
    !(jsIncludes normalizedQuery "course") &&
    !(jsIncludes normalizedQuery "assignment") &&
    !(jsIncludes normalizedQuery "lecture") &&
    !(jsIncludes normalizedQuery "professor") &&
    !(jsIncludes normalizedQuery "class")
  containsCurrentEventKeyword || isAskingAboutExternalTopic

/-- Decimal rendering of a natural number, modelling JS number-to-string
interpolation; written with structural fuel so it evaluates in the kernel. -/
def natToCharsAux : Nat → Nat → List Char → List Char
  | 0, n, acc => Char.ofNat (48 + n % 10) :: acc
  | fuel + 1, n, acc =>
    if n < 10 then Char.ofNat (48 + n) :: acc
    else natToCharsAux fuel (n / 10) (Char.ofNat (48 + n % 10) :: acc)

/-- Decimal rendering of a natural number. -/
def natToStr (n : Nat) : String := String.mk (natToCharsAux n n [])

/-- Concatenation of a list of strings (JS `forEach` accumulating `+=`). -/
def concatAll (l : List String) : String := l.foldl (fun a s => a ++ s) ""

/-- File record produced by the resource-directory scan
(`websiteKnowledgeUtils.scanDirectory`); the unread `modified` timestamp is
omitted, the search only touches `name` and `path`. -/
structure FileEntry where
  name : String
  path : String
  extension : String
  size : Nat
deriving DecidableEq

/-- Curated item of `downloads.json`; JSON fields may be absent, and the JS
guards test them for truthiness. -/
structure DownloadEntry where
  title : Option String
  description : Option String
  tags : Option (List String)
  url : Option String
deriving DecidableEq

/-- The in-memory resource database of `websiteKnowledgeUtils`, populated at
startup and read-only afterwards; modelled as an explicit argument. -/
structure ResourceDb where
  assignments : List FileEntry
  notes : List FileEntry
  labManuals : List FileEntry
  downloads : List DownloadEntry
deriving DecidableEq

/-- File filter of `searchResources`: the normalized query occurs in the
lower-cased name or path. -/
def fileMatches (normalizedQuery : String) (file : FileEntry) : Bool :=
  jsIncludes (lowerStr file.name) normalizedQuery ||
  jsIncludes (lowerStr file.path) normalizedQuery

/-- Download filter of `searchResources`: truthy title, description or tags
matching the normalized query (the empty string is falsy in JS; an empty tag
array is truthy). -/
def downloadMatches (normalizedQuery : String) (item : DownloadEntry) : Bool :=
  (match item.title with
   | some t => !(t == "") && jsIncludes (lowerStr t) normalizedQuery
   | none => false) ||
  (match item.description with
   | some d => !(d == "") && jsIncludes (lowerStr d) normalizedQuery
   | none => false) ||
  (match item.tags with
   | some tags => tags.any (fun tag => jsIncludes (lowerStr tag) normalizedQuery)
   | none => false)

/-- Result record of `searchResources`. -/
structure SearchResultSet where
  assignments : List FileEntry
  notes : List FileEntry
  labManuals : List FileEntry
  downloads : List DownloadEntry
  totalResults : Nat
deriving DecidableEq

/-- `websiteKnowledgeUtils.searchResources`. -/
def searchResources (query : String) (db : ResourceDb) : SearchResultSet :=
  let normalizedQuery := lowerStr query
  let matchingAssignments := db.assignments.filter (fileMatches normalizedQuery)
  let matchingNotes := db.notes.filter (fileMatches normalizedQuery)
  let matchingLabManuals := db.labManuals.filter (fileMatches normalizedQuery)
  let matchingDownloads := db.downloads.filter (downloadMatches normalizedQuery)
  { assignments := matchingAssignments
    notes := matchingNotes
    labManuals := matchingLabManuals
    downloads := matchingDownloads
    totalResults := matchingAssignments.length + matchingNotes.length +
                    matchingLabManuals.length + matchingDownloads.length }

/-- Per-category example lines of `getQueryContext` (up to three entries). -/
def fileExampleLines (files : List FileEntry) : String :=
  concatAll ((files.take 3).map (fun file => "  * " ++ file.name ++ " (" ++ file.path ++ ")\n"))

/-- JS template interpolation of a possibly-undefined string. -/
def jsShow : Option String → String
  | some s => s
  | none => "undefined"

/-- `websiteKnowledgeUtils.getQueryContext`. -/
def getQueryContext (query : String) (db : ResourceDb) : String :=
  let resourceInfo := extractResourceInfo query
  let searchResults := searchResources query db
  let context := ""
  let context := context ++
    (match resourceInfo.courseCode with
     | some c => "The user is asking about course " ++ c ++ ". "
     | none => "")
  let context := context ++
    (match resourceInfo.unit with
     | some u => if u ≠ 0 then "They are specifically interested in Unit " ++ natToStr u ++ ". " else ""
     | none => "")
  let context := context ++
    (match resourceInfo.semester with
     | some s => if s ≠ 0 then "They are looking for Semester " ++ natToStr s ++ " materials. " else ""
     | none => "")
  let context := context ++
    (match resourceInfo.resourceType with
     | some rt => "They want to find " ++ rt ++ " resources. "
     | none => "")
  if searchResults.totalResults > 0 then
    let context := context ++
      "\nI found " ++ natToStr searchResults.totalResults ++ " resources that might be relevant:\n"
    let context := context ++
      (if searchResults.assignments.length > 0 then
        "- " ++ natToStr searchResults.assignments.length ++ " assignments\n" ++
        fileExampleLines searchResults.assignments
      else "")
    let context := context ++
      (if searchResults.notes.length > 0 then
        "- " ++ natToStr searchResults.notes.length ++ " notes\n" ++
        fileExampleLines searchResults.notes
      else "")
    let context := context ++
      (if searchResults.labManuals.length > 0 then
        "- " ++ natToStr searchResults.labManuals.length ++ " lab manuals\n" ++
        fileExampleLines searchResults.labManuals
      else "")
    let context := context ++
      (if searchResults.downloads.length > 0 then
        "- " ++ natToStr searchResults.downloads.length ++ " downloads\n" ++
        concatAll ((searchResults.downloads.take 3).map (fun item =>
          "  * " ++ jsShow item.title ++ " (" ++
          (match item.url with
           | some u => if u ≠ "" then u else "No URL provided"
           | none => "No URL provided") ++ ")\n"))
      else "")
    context
  else context

/-- Page entry of the static `websiteNavigation.json` table. -/
structure NavPage where
  name : String
  path : String
  description : String
deriving DecidableEq

/-- Department entry of the navigation table. -/
structure NavDept where
  code : String
  name : String
  path : String
  courses : List String
deriving DecidableEq

/-- Semester entry of the navigation table; `number` is the digit string
interpolated into the dynamic semester regex. -/
structure NavSem where
  number : String
  name : String
  path : String
  courses : List String
deriving DecidableEq

/-- Resource entry of the navigation table. -/
structure NavResource where
  name : String
  path : String
  description : String
deriving DecidableEq

/-- The static navigation table loaded from `websiteNavigation.json`
(absent sections behave as empty lists). -/
structure NavTable where
  pages : List NavPage
  departments : List NavDept
  semesters : List NavSem
  resources : List NavResource
deriving DecidableEq

/-- One attempt of the dynamic semester regex
`\b NUMBER (st|nd|rd|th)?\s+sem(ester)?\b` (flag `i`) built in
`getWebsiteNavigationInfo`; the navigation data interpolates plain digit
strings, so `NUMBER` is matched literally. -/
def navSemAttempt (num : List Char) (prev : Option Char) (l : List Char) : Option Unit :=
  if isBoundary prev (headOpt l) then
    match stripCI num l with
    | some rest => if semAfterDigit rest then some () else none
    | none => none
  else none

/-- JS `semRegex.test(lowercaseQuery)` for a semester navigation entry. -/
def navSemTest (number : String) (lowercaseQuery : String) : Bool :=
  (scanFind (navSemAttempt number.data) none lowercaseQuery.data).isSome

/-- `educationalUtils.getWebsiteNavigationInfo`. -/
def getWebsiteNavigationInfo (query : String) (nav : NavTable) : String :=
  let lowercaseQuery := lowerStr query
  let navigationInfo := ""
  let navigationInfo := navigationInfo ++ concatAll (nav.pages.map (fun page =>
    if jsIncludes lowercaseQuery (lowerStr page.name) then
      "\nThe " ++ page.name ++ " page can be found at " ++ page.path ++ ". " ++
      page.description ++ "\n"
    else ""))
  let navigationInfo := navigationInfo ++ concatAll (nav.departments.map (fun dept =>
    if jsIncludes lowercaseQuery (lowerStr dept.code) ||
       jsIncludes lowercaseQuery (lowerStr dept.name) then
      "\nThe " ++ dept.name ++ " (" ++ dept.code ++ ") department page can be found at " ++
      dept.path ++ ". It offers courses: " ++ joinSep ", " dept.courses ++ ".\n"
    else ""))
  let navigationInfo := navigationInfo ++ concatAll (nav.semesters.map (fun sem =>
    if navSemTest sem.number lowercaseQuery then
      "\nThe " ++ sem.name ++ " page can be found at " ++ sem.path ++
      ". It includes courses: " ++ joinSep ", " sem.courses ++ ".\n"
    else ""))
  let navigationInfo := navigationInfo ++ concatAll (nav.resources.map (fun resource =>
    if jsIncludes lowercaseQuery (lowerStr resource.name) then
      "\nThe " ++ resource.name ++ " can be found at " ++ resource.path ++ ". " ++
      resource.description ++ "\n"
    else ""))
  navigationInfo

/-- Outcome of the awaited `getWebSearchContext` call: the returned context
string, or a thrown adapter error (caught and logged by the orchestrator). -/
inductive WebOutcome
  | ok (context : String)
  | failure
deriving DecidableEq

/-- Opening persona sentence of the system message (`server.js`). -/
def basePersona : String :=
  "You are LearnFlow Assistant, an advanced AI for an educational platform. "

/-- Fixed closing instruction block of the system message (`server.js`). -/
def closingInstructions : String :=
  "\nProvide concise, accurate information about academic topics, learning resources, and study techniques. Be friendly and supportive.\n\nWhen answering:\n1. For educational questions, provide clear explanations with examples\n2. For coding questions, provide well-commented code snippets\n3. For resource questions, give specific paths where materials can be found\n4. For course-specific questions, reference relevant course materials and topics\n5. For general knowledge questions, use your knowledge to provide accurate and up-to-date information\n6. For website-specific questions, guide users to the appropriate section of the LearnFlow website\n\nIf the user asks about content on the LearnFlow website, try to provide direct links or paths to the relevant pages.\nIf the user asks about academic topics not specific to LearnFlow, provide comprehensive educational answers.\n\nAlways maintain a helpful, educational tone and focus on providing value to students."

/-- The system-message assembly of `server.js` (lines 222-289): persona,
course context, navigation context with semester resources and navigation
table hits, website knowledge context, optional web-search context, closing
instructions. -/
def composeSystemMessage (userContent : String) (db : ResourceDb) (nav : NavTable)
    (webSearchOutcome : WebOutcome) : String :=
  let systemMessage := basePersona
  let systemMessage := systemMessage ++
    (match extractCourseCode userContent with
     | some courseCode =>
       match getCourseInfo courseCode with
       | some courseInfo =>
         "\nThe user is asking about " ++ courseCode ++ ": " ++ courseInfo.name ++
         ". This course covers: " ++ joinSep ", " courseInfo.topics ++ ". "
       | none => ""
     | none => "")
  let systemMessage := systemMessage ++
    (if isNavigationQuery userContent then
      "\nThe user is asking about navigating or finding resources on the LearnFlow platform. Be specific about where to find materials. " ++
      (match semesterMatch userContent with
       | some semNumber =>
         match getSemesterResources semNumber with
         | some semResources =>
           "\nSemester " ++ natToStr semNumber ++ " resources are located at " ++
           semResources.path ++ " and include courses: " ++
           joinSep ", " semResources.courses ++ ". "
         | none => ""
       | none => "") ++
      (let navigationInfo := getWebsiteNavigationInfo userContent nav
       if navigationInfo ≠ "" then navigationInfo else "")
    else "")
  let systemMessage := systemMessage ++
    (let websiteContext := getQueryContext userContent db
     if websiteContext ≠ "" then "\n" ++ websiteContext else "")
  let systemMessage := systemMessage ++
    (if needsWebSearch userContent then
      match webSearchOutcome with
      | .ok webSearchContext =>
        if webSearchContext ≠ "" then
          "\nI've searched the web for information related to this query. Here are some relevant results: " ++ webSearchContext
        else ""
      | .failure => ""
    else "")
  systemMessage ++ closingInstructions

/-- A chat message of the request body. -/
structure ChatMessage where
  role : String
  content : String
deriving DecidableEq

/-- The full prompt of `server.js` (lines 291-295): system message, the
last five conversation messages' content joined by newlines, and the
literal user query. -/
def composeFullPrompt (userContent : String) (messages : List ChatMessage)
    (db : ResourceDb) (nav : NavTable) (web : WebOutcome) : String :=
  let systemMessage := composeSystemMessage userContent db nav web
  let conversationHistory :=
    joinSep "\n" ((messages.drop (messages.length - 5)).map (fun msg => msg.content))
  systemMessage ++ "\n\nConversation history:\n" ++ conversationHistory ++
    "\n\nUser query: " ++ userContent

/-- Window length in milliseconds (`rateLimits.windowMs`). -/
def windowMs : Nat := 60000

/-- Maximum requests per window (`rateLimits.maxRequests`). -/
def maxRequests : Nat := 10

/-- Per-identity entry of the `rateLimits.tokens` map. -/
structure Bucket where
  count : Nat
  resetTime : Nat
deriving DecidableEq

/-- Outcome of the rate-limiter middleware for one request: call `next()`,
or reply 429 carrying the bucket's reset time. -/
inductive RLOutcome
  | passed
  | rejected (resetTime : Nat)
deriving DecidableEq

/-- One request through the `rateLimiter` middleware for a fixed identity:
initialize the bucket if absent, reset it if the window has passed
(`now > userToken.resetTime`), reject at the limit, otherwise increment
and continue.  Returns the outcome and the identity's bucket afterwards. -/
def rlStep (bucket : Option Bucket) (now : Nat) : RLOutcome × Bucket :=
  let userToken :=
    match bucket with
    | none => { count := 0, resetTime := now + windowMs : Bucket }
    | some b => b
  let userToken :=
    if userToken.resetTime < now then
      { count := 0, resetTime := now + windowMs : Bucket }
    else userToken
  if maxRequests ≤ userToken.count then
    (RLOutcome.rejected userToken.resetTime, userToken)
  else
    (RLOutcome.passed, { count := userToken.count + 1, resetTime := userToken.resetTime })

/-- Sequential requests of one identity through the rate limiter. -/
def rlRun (bucket : Option Bucket) : List Nat → List RLOutcome × Option Bucket
  | [] => ([], bucket)
  | t :: ts =>
    let s := rlStep bucket t
    let r := rlRun (some s.2) ts
    (s.1 :: r.1, r.2)

/-- The HTTP replies of the chat endpoint, as far as the claims observe
them: status, optional assistant message, optional error text, optional
rate-limit reset time. -/
structure HttpResponse where
  status : Nat
  message : Option ChatMessage
  error : Option String
  resetTime : Option Nat
deriving DecidableEq

/-- The middleware's reply on rejection (`res.status(429).json({error, resetTime})`);
`none` models `next()` passing control to the endpoint handler. -/
def rlRespond : RLOutcome → Option HttpResponse
  | .passed => none
  | .rejected rt =>
    some { status := 429, message := none,
           error := some "Rate limit exceeded. Please try again later.",
           resetTime := some rt }

/-- Outcome of one LLM Gateway call: the extracted candidate text on a
well-formed success payload, or failure of any kind — non-success status,
payload missing the `candidates[0].content` structure (the handler throws
`Invalid response format from Gemini API`), or a transport error; all of
these reach the enclosing `catch`. -/
inductive GatewayOutcome
  | ok (text : String)
  | failure
deriving DecidableEq

/-- Modelled from the spec: a file listed by `scanProjectFiles`, whose
implementation (`utils/fileScannerUtils.js`) is not among the sources.  Per
§1 the capability yields entries with path, content and line count; the
orchestrator also reads an `extension` field. -/
structure ScanFile where
  path : String
  lines : Nat
  extension : String
  content : String
deriving DecidableEq

/-- Modelled from the spec: the result of `scanProjectFiles` — per §4.2/§4.5
either a successful listing (scanned-file count, scan path, capped file
list) or, on scan failure such as a bad path, an unsuccessful result with an
error message rather than a thrown exception or HTTP error. -/
inductive ScanOutcome
  | success (scannedFiles : Nat) (scanPath : String) (files : List ScanFile)
  | failure (error : String)
deriving DecidableEq

/-- External collaborators of one request: the scan adapter keyed by the
requested path, the analysis and chat Gateway calls keyed by their prompt,
the web-search adapter keyed by the query, the resource index and the
navigation table. -/
structure OrchestratorEnv where
  scan : String → ScanOutcome
  analysisGateway : String → GatewayOutcome
  chatGateway : String → GatewayOutcome
  webSearch : String → WebOutcome
  db : ResourceDb
  nav : NavTable

/-- Per-file fragment of the analysis prompt (`server.js` lines 149-153). -/
def scanFileFragment (file : ScanFile) : String :=
  "\nFile: " ++ file.path ++ " (" ++ natToStr file.lines ++ " lines)\nExtension: " ++
  file.extension ++ "\nFirst 500 chars: " ++ String.mk (file.content.data.take 500) ++
  (if file.content.data.length > 500 then "..." else "") ++ "\n"

/-- The code-review prompt sent to the Gateway for `/scan` results
(`server.js` lines 148-162). -/
def fileAnalysisPrompt (files : List ScanFile) : String :=
  "You are a code review expert. Analyze these files for potential issues:\n" ++
  joinSep "\n" (files.map scanFileFragment) ++
  "\n\nIdentify potential issues like:\n1. Syntax errors\n2. Broken imports\n3. Unused variables or dead code\n4. Missing tags or structural issues\n5. Unhandled async code or bad API calls\n\nFormat your response as a clear, concise report with specific issues and suggested fixes."

/-- Plain file listing used when the analysis Gateway call fails. -/
def fileListingLines (files : List ScanFile) : String :=
  joinSep "\n" (files.map (fun file =>
    "- " ++ file.path ++ " (" ++ natToStr file.lines ++ " lines)"))

/-- Path extraction of the scan command (`server.js` lines 133-134): the
words after the command token, rejoined by single spaces (default empty). -/
def scanPathOf (userContent : String) : String :=
  let parts := jsSplitSpace userContent
  if parts.length > 1 then joinSep " " (parts.drop 1) else ""

/-- The `/scan` and `/debug` command branch of the chat endpoint
(`server.js` lines 131-219). -/
def handleScanCommand (env : OrchestratorEnv) (userContent : String) : HttpResponse :=
  match env.scan (scanPathOf userContent) with
  | .success scannedFiles resultPath files =>
    let responseContent :=
      "📁 File Scan Results:\n\nScanned " ++ natToStr scannedFiles ++ " files in " ++
      resultPath ++ "\n"
    let responseContent :=
      if files.length > 0 then
        match env.analysisGateway (fileAnalysisPrompt files) with
        | .ok analysisText => responseContent ++ "\n" ++ analysisText
        | .failure =>
          responseContent ++ "\nFile analysis failed. Here's a list of files found:\n" ++
          fileListingLines files
      else
        responseContent ++ "\nNo files found matching the criteria."
    { status := 200, message := some { role := "assistant", content := responseContent },
      error := none, resetTime := none }
  | .failure scanErr =>
    { status := 200,
      message := some { role := "assistant", content := "❌ Scan Error: " ++ scanErr },
      error := none, resetTime := none }

/-- The keyword-matched canned fallback of the chat endpoint
(`server.js` lines 345-359). -/
def fallbackResponse (userContent : String) : String :=
  if jsIncludes (lowerStr userContent) "hello" || jsIncludes (lowerStr userContent) "hi" then
    "Hello! I'm LearnFlow Assistant. How can I help you with your educational needs today?"
  else if jsIncludes (lowerStr userContent) "help" then
    "I'm here to help with your educational questions. You can ask me about courses, assignments, or study resources."
  else if jsIncludes (lowerStr userContent) "course" || jsIncludes (lowerStr userContent) "class" then
    "LearnFlow offers various courses across different disciplines. You can find course materials in the Resources section of the website."
  else if jsIncludes (lowerStr userContent) "assignment" || jsIncludes (lowerStr userContent) "homework" then
    "For assignment help, please check the specific course page where all assignments are listed with their due dates and requirements."
  else if jsIncludes (lowerStr userContent) "resource" || jsIncludes (lowerStr userContent) "material" then
    "Educational resources are available in the Resources section. You can filter by course, semester, or topic to find what you need."
  else
    "I'm currently experiencing connection issues with my knowledge base. Please try again later or rephrase your question."

/-- The `messages` field of the request body: absent (or otherwise falsy),
present but not an array, or an array of messages. -/
inductive MessagesField
  | absent
  | notArray
  | arr (messages : List ChatMessage)

/-- The `POST /api/chat` handler body after the rate limiter (`server.js`
lines 113-378): input validation, command dispatch, prompt composition,
Gateway call and fallback. -/
def handleChat (env : OrchestratorEnv) (body : MessagesField) : HttpResponse :=
  match body with
  | .absent =>
    { status := 400, message := none, error := some "Messages array is required",
      resetTime := none }
  | .notArray =>
    { status := 400, message := none, error := some "Messages array is required",
      resetTime := none }
  | .arr messages =>
    match messages.reverse.find? (fun msg => msg.role == "user") with
    | none =>
      { status := 400, message := none, error := some "No user message found",
        resetTime := none }
    | some latestUserMessage =>
      let userContent := jsTrim latestUserMessage.content
      if jsStartsWith userContent "/scan" || jsStartsWith userContent "/debug" then
        handleScanCommand env userContent
      else
        let fullPrompt :=
          composeFullPrompt userContent messages env.db env.nav (env.webSearch userContent)
        match env.chatGateway fullPrompt with
        | .ok responseText =>
          { status := 200,
            message := some { role := "assistant", content := responseText },
            error := none, resetTime := none }
        | .failure =>
          { status := 200,
            message := some { role := "assistant", content := fallbackResponse userContent },
            error := none, resetTime := none }

/-- The resource database right after a startup in which every category is
empty (missing directories and an empty `downloads.json`). -/
def emptyDb : ResourceDb :=
  { assignments := [], notes := [], labManuals := [], downloads := [] }

/-- The navigation table used when `websiteNavigation.json` fails to load
(the error fallback object of `educationalUtils`). -/
def emptyNav : NavTable :=
  { pages := [], departments := [], semesters := [], resources := [] }

/-- A concrete environment in which every external collaborator fails:
used to exercise the fallback paths. -/
def sampleEnv : OrchestratorEnv :=
  { scan := fun _ => ScanOutcome.failure "ENOENT: no such file or directory"
    analysisGateway := fun _ => GatewayOutcome.failure
    chatGateway := fun _ => GatewayOutcome.failure
    webSearch := fun _ => WebOutcome.failure
    db := emptyDb
    nav := emptyNav }

/-- A curated download entry tagged "iot" (the §8 search example). -/
def iotDownload : DownloadEntry :=
  { title := some "IoT Starter Kit"
    description := some "Getting started with the Internet of Things"
    tags := some ["iot", "cse"]
    url := some "/downloads/iot-starter.pdf" }

/-- A small concrete resource database holding the `iotDownload` entry. -/
def sampleDb : ResourceDb :=
  { assignments := [], notes := [], labManuals := [], downloads := [iotDownload] }

/-- The six in-platform keywords tested by `needsWebSearch`, as enumerated
by the claim. -/
def platformKeywords : List String :=
  ["learnflow", "course", "assignment", "lecture", "professor", "class"]

/-- All keywords tested by the canned fallback, in `server.js` order. -/
def fallbackKeywords : List String :=
  ["hello", "hi", "help", "course", "class", "assignment", "homework",
   "resource", "material"]

/-- Lower-cased character-list view of an ordinal suffix alternative. -/
def isOrdSuffix (ord : List Char) : Prop :=
  ord.map Char.toLower = "st".data ∨ ord.map Char.toLower = "nd".data ∨
  ord.map Char.toLower = "rd".data ∨ ord.map Char.toLower = "th".data

/-- Declarative reading of one occurrence of the semester pattern
`\b(\d)(st|nd|rd|th)?\s+sem(ester)?\b` (case-insensitive) inside a query:
a digit at a word boundary, an optional ordinal suffix, at least one
whitespace character, the word "sem" or "semester", and a trailing word
boundary; `n` is the digit's value. -/
def SemOccurrence (q : String) (n : Nat) : Prop :=
  ∃ pre : List Char, ∃ d : Char, ∃ ord ws sw post : List Char,
    q.data = pre ++ d :: (ord ++ ws ++ sw ++ post) ∧
    isDigit09 d = true ∧
    n = d.toNat - 48 ∧
    (match pre.getLast? with
     | none => True
     | some c => isWordChar c = false) ∧
    (ord = [] ∨ isOrdSuffix ord) ∧
    ws ≠ [] ∧ (∀ c ∈ ws, isSpaceChar c = true) ∧
    (sw.map Char.toLower = "sem".data ∨ sw.map Char.toLower = "semester".data) ∧
    (match post with
     | [] => True
     | c :: _ => isWordChar c = false)

/-- The claim's reading of the semester pattern, restricted to digits 1-9. -/
def SemOccurrence19 (q : String) (n : Nat) : Prop :=
  SemOccurrence q n ∧ 1 ≤ n ∧ n ≤ 9

/-- Declarative reading of one occurrence of the course-code pattern
`\b([A-Za-z]{2,3})\s*(\d{3})\b` inside a query: two or three letters at a
word boundary, optional whitespace, exactly three digits, and a trailing
word boundary. -/
def CourseOccurrence (q : String) (letters digits : List Char) : Prop :=
  ∃ pre post ws : List Char,
    q.data = pre ++ letters ++ ws ++ digits ++ post ∧
    (letters.length = 2 ∨ letters.length = 3) ∧
    (∀ c ∈ letters, isLetterAZ c = true) ∧
    (∀ c ∈ ws, isSpaceChar c = true) ∧
    digits.length = 3 ∧
    (∀ c ∈ digits, isDigit09 c = true) ∧
    (match pre.getLast? with
     | none => True
     | some c => isWordChar c = false) ∧
    (match post with
     | [] => True
     | c :: _ => isWordChar c = false)

/-!
Theorems.  First the string and scan helper lemmas, then one theorem per
specification claim (with concrete witnesses and counterexamples).
-/

theorem isPrefixL_iff : ∀ p l : List Char, isPrefixL p l = true ↔ p <+: l
  | [], l => by simp [isPrefixL]
  | _ :: _, [] => by simp [isPrefixL]
  | p :: ps, c :: cs => by
    rw [isPrefixL, Bool.and_eq_true, beq_iff_eq, List.cons_prefix_cons, isPrefixL_iff]

theorem isSubL_iff : ∀ n l : List Char, isSubL n l = true ↔ n <:+: l
  | n, [] => by
    rw [isSubL, isPrefixL_iff, List.infix_nil, List.prefix_nil]
  | n, c :: cs => by
    rw [isSubL, Bool.or_eq_true, isPrefixL_iff, isSubL_iff, List.infix_cons_iff]

theorem jsIncludes_iff (hay needle : String) :
    jsIncludes hay needle = true ↔ needle.data <:+: hay.data :=
  isSubL_iff needle.data hay.data

theorem string_data_append (s t : String) : (s ++ t).data = s.data ++ t.data := by
  cases s; cases t; rfl

theorem jsIncludes_eq_false (hay needle : String) :
    jsIncludes hay needle = false ↔ ¬ needle.data <:+: hay.data := by
  rw [← jsIncludes_iff]
  simp

theorem scanFind_isSome {α : Type} (f : Option Char → List Char → Option α) :
    ∀ (xs : List Char) (prev : Option Char) (c : Char) (ys : List Char),
    (f (prevAfter prev xs) (c :: ys)).isSome = true →
    (scanFind f prev (xs ++ c :: ys)).isSome = true
  | [], prev, c, ys, h => by
    rw [List.nil_append, scanFind]
    cases hf : f prev (c :: ys) with
    | none => rw [prevAfter] at h; rw [hf] at h; simp at h
    | some r => simp
  | x :: xs, prev, c, ys, h => by
    rw [List.cons_append, scanFind]
    cases hf : f prev (x :: (xs ++ c :: ys)) with
    | none => exact scanFind_isSome f xs (some x) c ys h
    | some r => simp

theorem isDigit09_toNat (c : Char) (h : isDigit09 c = true) :
    48 ≤ c.toNat ∧ c.toNat ≤ 57 := by
  rw [isDigit09, Char.isDigit] at h
  simp only [Bool.and_eq_true, decide_eq_true_eq] at h
  exact h

theorem isLetterAZ_toNat (c : Char) (h : isLetterAZ c = true) :
    (65 ≤ c.toNat ∧ c.toNat ≤ 90) ∨ (97 ≤ c.toNat ∧ c.toNat ≤ 122) := by
  rw [isLetterAZ, Char.isAlpha, Char.isUpper, Char.isLower] at h
  simp only [Bool.or_eq_true, Bool.and_eq_true, decide_eq_true_eq] at h
  exact h

theorem isDigit09_not_letter (c : Char) (h : isDigit09 c = true) :
    isLetterAZ c = false := by
  by_contra hc
  rw [Bool.not_eq_false] at hc
  obtain ⟨h1, h2⟩ := isDigit09_toNat c h
  rcases isLetterAZ_toNat c hc with ⟨h3, _⟩ | ⟨h3, _⟩ <;> omega

theorem isLetterAZ_word (c : Char) (h : isLetterAZ c = true) :
    isWordChar c = true := by
  rw [isLetterAZ] at h
  rw [isWordChar, h]
  rfl

theorem isDigit09_word (c : Char) (h : isDigit09 c = true) :
    isWordChar c = true := by
  rw [isDigit09] at h
  rw [isWordChar, h]
  simp

theorem isSpaceChar_cases (c : Char) (h : isSpaceChar c = true) :
    c = ' ' ∨ c = '\t' ∨ c = '\n' ∨ c = '\r' ∨ c = Char.ofNat 11 ∨ c = Char.ofNat 12 := by
  rw [isSpaceChar] at h
  simp only [Bool.or_eq_true, beq_iff_eq] at h
  tauto

theorem isSpaceChar_not_digit (c : Char) (h : isSpaceChar c = true) :
    isDigit09 c = false := by
  rcases isSpaceChar_cases c h with h | h | h | h | h | h <;> subst h <;> decide

theorem isDigit09_not_space (c : Char) (h : isDigit09 c = true) :
    isSpaceChar c = false := by
  by_contra hc
  rw [Bool.not_eq_false] at hc
  rw [isSpaceChar_not_digit c hc] at h
  cases h

theorem isSpaceChar_not_letter (c : Char) (h : isSpaceChar c = true) :
    isLetterAZ c = false := by
  rcases isSpaceChar_cases c h with h | h | h | h | h | h <;> subst h <;> decide

theorem isSpaceChar_toLower (c : Char) (h : isSpaceChar c = true) :
    c.toLower = c := by
  rcases isSpaceChar_cases c h with h | h | h | h | h | h <;> subst h <;> decide

theorem not_space_of_toLower_s (c : Char) (h : c.toLower = 's') :
    isSpaceChar c = false := by
  by_contra hc
  rw [Bool.not_eq_false] at hc
  rw [isSpaceChar_toLower c hc] at h
  subst h
  exact absurd hc (by decide)

theorem stripCI_append : ∀ (pat pre post : List Char),
    pre.map Char.toLower = pat.map Char.toLower →
    stripCI pat (pre ++ post) = some post
  | [], pre, post, h => by
    have : pre = [] := by
      cases pre with
      | nil => rfl
      | cons x xs => simp at h
    subst this
    rfl
  | p :: ps, pre, post, h => by
    cases pre with
    | nil => simp at h
    | cons c cs =>
      simp only [List.map_cons, List.cons.injEq] at h
      rw [List.cons_append, stripCI, if_pos (by rw [beq_iff_eq]; exact h.1)]
      exact stripCI_append ps cs post h.2

theorem stripCI_some : ∀ (pat l r : List Char),
    stripCI pat l = some r →
    ∃ pre, l = pre ++ r ∧ pre.map Char.toLower = pat.map Char.toLower
  | [], l, r, h => by
    rw [stripCI] at h
    simp only [Option.some_inj] at h
    exact ⟨[], by rw [h, List.nil_append], rfl⟩
  | p :: ps, [], r, h => by rw [stripCI] at h; cases h
  | p :: ps, c :: cs, r, h => by
    rw [stripCI] at h
    by_cases hc : (c.toLower == p.toLower) = true
    · rw [if_pos hc] at h
      obtain ⟨pre, hsplit, hmap⟩ := stripCI_some ps cs r h
      refine ⟨c :: pre, by rw [hsplit, List.cons_append], ?_⟩
      simp only [List.map_cons, hmap, List.cons.injEq]
      exact ⟨beq_iff_eq.mp hc, by trivial⟩
    · rw [if_neg hc] at h
      cases h

theorem dropWhile_all_append (p : Char → Bool) : ∀ (ws rest : List Char),
    (∀ c ∈ ws, p c = true) →
    (match rest with | [] => True | c :: _ => p c = false) →
    (ws ++ rest).dropWhile p = rest
  | [], rest, _, h2 => by
    rw [List.nil_append]
    cases rest with
    | nil => rfl
    | cons r rs => rw [List.dropWhile_cons, h2]; rfl
  | w :: ws, rest, h1, h2 => by
    rw [List.cons_append, List.dropWhile_cons, h1 w (by simp)]
    exact dropWhile_all_append p ws rest (fun c hc => h1 c (by simp [hc])) h2

theorem bAfter_of : ∀ post : List Char,
    (match post with | [] => True | c :: _ => isWordChar c = false) →
    bAfter post = true
  | [], _ => rfl
  | c :: _, h => by rw [bAfter, headOpt, isWordOpt, h]; rfl

theorem bAfter_elim : ∀ post : List Char, bAfter post = true →
    (match post with | [] => True | c :: _ => isWordChar c = false)
  | [], _ => trivial
  | c :: _, h => by
    rw [bAfter, headOpt, isWordOpt] at h
    simpa using h

theorem scanFind_some_elim {α : Type} (f : Option Char → List Char → Option α) :
    ∀ (l : List Char) (prev : Option Char) (a : α),
    scanFind f prev l = some a →
    ∃ xs ys, l = xs ++ ys ∧ f (prevAfter prev xs) ys = some a
  | [], _, _, h => by rw [scanFind] at h; exact absurd h (by simp)
  | c :: rest, prev, a, h => by
    rw [scanFind] at h
    cases hf : f prev (c :: rest) with
    | none =>
      rw [hf] at h
      obtain ⟨xs, ys, hsplit, hfa⟩ := scanFind_some_elim f rest (some c) a h
      exact ⟨c :: xs, ys, by rw [hsplit, List.cons_append], hfa⟩
    | some r =>
      rw [hf] at h
      simp only [Option.some_inj] at h
      exact ⟨[], c :: rest, rfl, by rw [prevAfter, hf, h]⟩

/-- C4: the web-search-need detector returns true exactly when the
lowercased query contains at least one recency keyword or contains none of
the six platform keywords; in particular every query mentioning no
platform keyword triggers a web search. -/
theorem needsWebSearch_characterization (query : String) :
    (needsWebSearch query = true ↔
      ((∃ k ∈ currentEventKeywords, k.data <:+: (lowerStr query).data) ∨
       (∀ k ∈ platformKeywords, ¬ k.data <:+: (lowerStr query).data))) ∧
    ((∀ k ∈ platformKeywords, ¬ k.data <:+: (lowerStr query).data) →
      needsWebSearch query = true) := by
  have main : needsWebSearch query = true ↔
      ((∃ k ∈ currentEventKeywords, k.data <:+: (lowerStr query).data) ∨
       (∀ k ∈ platformKeywords, ¬ k.data <:+: (lowerStr query).data)) := by
    rw [needsWebSearch]
    simp [jsIncludes_iff, jsIncludes_eq_false, platformKeywords, and_assoc]
  exact ⟨main, fun h => main.mpr (Or.inr h)⟩

/-- C4 witness: a query with no platform keyword triggers a web search. -/
theorem needsWebSearch_characterization_witness :
    needsWebSearch "what is the weather" = true :=
  (needsWebSearch_characterization "what is the weather").2 (by decide)

/-- C5: prompt composition is a deterministic function of the user query,
the conversation message list, the resource-index state, the navigation
table and the web-search adapter output: two runs on identical inputs
produce byte-identical prompt text. -/
theorem composeFullPrompt_deterministic
    (q q' : String) (msgs msgs' : List ChatMessage) (db db' : ResourceDb)
    (nav nav' : NavTable) (web web' : WebOutcome)
    (hq : q = q') (hm : msgs = msgs') (hdb : db = db')
    (hnav : nav = nav') (hweb : web = web') :
    composeFullPrompt q msgs db nav web = composeFullPrompt q' msgs' db' nav' web' := by
  rw [hq, hm, hdb, hnav, hweb]

/-- C5 witness: two identical composition runs on a concrete input. -/
theorem composeFullPrompt_deterministic_witness :
    composeFullPrompt "hello" [{ role := "user", content := "hello" }] emptyDb emptyNav
        (WebOutcome.ok "") =
      composeFullPrompt "hello" [{ role := "user", content := "hello" }] emptyDb emptyNav
        (WebOutcome.ok "") :=
  composeFullPrompt_deterministic _ _ _ _ _ _ _ _ _ _ rfl rfl rfl rfl rfl

theorem handleScanCommand_shape (env : OrchestratorEnv) (uc : String) :
    (handleScanCommand env uc).status = 200 ∧
    ∃ c, (handleScanCommand env uc).message = some { role := "assistant", content := c } := by
  rw [handleScanCommand]
  cases env.scan (scanPathOf uc) with
  | success n p files => exact ⟨rfl, _, rfl⟩
  | failure e => exact ⟨rfl, _, rfl⟩

theorem handleChat_user_found (env : OrchestratorEnv) (messages : List ChatMessage)
    (m : ChatMessage)
    (hfind : messages.reverse.find? (fun msg => msg.role == "user") = some m) :
    (handleChat env (MessagesField.arr messages)).status = 200 ∧
    ∃ c, (handleChat env (MessagesField.arr messages)).message =
      some { role := "assistant", content := c } := by
  simp only [handleChat, hfind]
  by_cases hcmd : (jsStartsWith (jsTrim m.content) "/scan" ||
      jsStartsWith (jsTrim m.content) "/debug") = true
  · simp only [hcmd, if_true]
    exact handleScanCommand_shape env (jsTrim m.content)
  · rw [Bool.not_eq_true] at hcmd
    simp only [hcmd, Bool.false_eq_true, if_false]
    cases env.chatGateway (composeFullPrompt (jsTrim m.content) messages env.db env.nav
        (env.webSearch (jsTrim m.content))) with
    | ok text => exact ⟨rfl, _, rfl⟩
    | failure => exact ⟨rfl, _, rfl⟩

/-- C6: the chat endpoint replies HTTP 400 with no assistant content
exactly when `messages` is absent, not an array, or contains no message
with role "user"; in every other case handling proceeds past validation
(and in this embedding produces a 200 with an assistant message). -/
theorem chat_validation (env : OrchestratorEnv) (body : MessagesField) :
    ((handleChat env body).status = 400 ∧ (handleChat env body).message = none) ↔
      (body = MessagesField.absent ∨ body = MessagesField.notArray ∨
        ∃ messages, body = MessagesField.arr messages ∧
          ∀ msg ∈ messages, msg.role ≠ "user") := by
  cases body with
  | absent => simp [handleChat]
  | notArray => simp [handleChat]
  | arr messages =>
    cases hfind : messages.reverse.find? (fun msg => msg.role == "user") with
    | none =>
      simp only [handleChat, hfind]
      constructor
      · intro _
        refine Or.inr (Or.inr ⟨messages, rfl, fun msg hmem => ?_⟩)
        have := List.find?_eq_none.mp hfind msg (List.mem_reverse.mpr hmem)
        simpa using this
      · intro _; exact ⟨by trivial, by trivial⟩
    | some m =>
      have hshape := handleChat_user_found env messages m hfind
      constructor
      · intro h
        rw [hshape.1] at h
        exact absurd h.1 (by decide)
      · rintro (h | h | ⟨l, hl, hnone⟩)
        · exact absurd h (by intro hc; cases hc)
        · exact absurd h (by intro hc; cases hc)
        · exfalso
          cases hl
          have hmem := List.mem_reverse.mp (List.mem_of_find?_eq_some hfind)
          have hrole := List.find?_some hfind
          exact hnone m hmem (by simpa using hrole)

/-- C6 witness: a body with no user-role message yields 400 and no
assistant content. -/
theorem chat_validation_witness :
    (handleChat sampleEnv
        (MessagesField.arr [{ role := "assistant", content := "hi" }])).status = 400 ∧
    (handleChat sampleEnv
        (MessagesField.arr [{ role := "assistant", content := "hi" }])).message = none :=
  (chat_validation sampleEnv _).mpr
    (Or.inr (Or.inr ⟨[{ role := "assistant", content := "hi" }], rfl, by decide⟩))

/-- C10: a request rejected with HTTP 429 leaves the identity's bucket
(count and reset time) unchanged; only passing requests increment the
counter. -/
theorem rl_reject_unchanged (bucket : Option Bucket) (now rt : Nat)
    (h : (rlStep bucket now).1 = RLOutcome.rejected rt) :
    bucket = some (rlStep bucket now).2 ∧
    rlRespond (rlStep bucket now).1 =
      some { status := 429, message := none,
             error := some "Rate limit exceeded. Please try again later.",
             resetTime := some rt } := by
  cases bucket with
  | none =>
    exfalso
    have hstep : rlStep none now =
        (RLOutcome.passed, { count := 1, resetTime := now + windowMs }) := by
      rw [rlStep]
      have h1 : ¬ (now + windowMs < now) := by omega
      simp [h1, maxRequests]
    rw [hstep] at h
    exact absurd h (by simp)
  | some b =>
    by_cases hr : b.resetTime < now
    · exfalso
      have hstep : rlStep (some b) now =
          (RLOutcome.passed, { count := 1, resetTime := now + windowMs }) := by
        rw [rlStep]
        simp [hr, maxRequests]
      rw [hstep] at h
      exact absurd h (by simp)
    · by_cases hc : maxRequests ≤ b.count
      · have hstep : rlStep (some b) now = (RLOutcome.rejected b.resetTime, b) := by
          rw [rlStep]
          simp [hr, hc]
        rw [hstep] at h
        simp only [RLOutcome.rejected.injEq] at h
        rw [hstep]
        exact ⟨rfl, by rw [rlRespond, h]⟩
      · exfalso
        have hstep : rlStep (some b) now =
            (RLOutcome.passed, { count := b.count + 1, resetTime := b.resetTime }) := by
          rw [rlStep]
          simp [hr, hc]
        rw [hstep] at h
        exact absurd h (by simp)

/-- C10 witness: a rejection at the limit leaves the bucket untouched. -/
theorem rl_reject_unchanged_witness :
    some (rlStep (some { count := 10, resetTime := 100 }) 50).2 =
      some ({ count := 10, resetTime := 100 } : Bucket) ∧
    rlRespond (rlStep (some { count := 10, resetTime := 100 }) 50).1 =
      some { status := 429, message := none,
             error := some "Rate limit exceeded. Please try again later.",
             resetTime := some 100 } :=
  have h := rl_reject_unchanged (some { count := 10, resetTime := 100 }) 50 100 (by decide)
  ⟨h.1.symm, h.2⟩

theorem rlStep_pass_in_window (c R t : Nat) (ht : t ≤ R) (hc : c < maxRequests) :
    rlStep (some { count := c, resetTime := R }) t =
      (RLOutcome.passed, { count := c + 1, resetTime := R }) := by
  rw [rlStep]
  have h1 : ¬ (R < t) := by omega
  simp [h1, Nat.not_le.mpr hc]

theorem rlRun_window : ∀ (ts : List Nat) (c R : Nat),
    (∀ t ∈ ts, t ≤ R) → c + ts.length ≤ maxRequests →
    rlRun (some { count := c, resetTime := R }) ts =
      (List.replicate ts.length RLOutcome.passed,
       some { count := c + ts.length, resetTime := R })
  | [], c, R, _, _ => by simp [rlRun]
  | t :: ts, c, R, hin, hcap => by
    have hstep := rlStep_pass_in_window c R t (hin t (by simp)) (by simp at hcap; omega)
    have hrec := rlRun_window ts (c + 1) R (fun x hx => hin x (by simp [hx]))
      (by simp at hcap; omega)
    simp only [rlRun, hstep, hrec]
    have hlen : c + 1 + ts.length = c + (ts.length + 1) := by omega
    simp [List.replicate_succ, hlen]

/-- C2: for a fixed identity issuing sequential requests, the first ten
inside one 60-second window all pass (the first creating the bucket), the
eleventh inside the window is rejected with a 429 reply carrying the
window reset time and leaves the counter at 10, and the first request
after the window passes with the counter reset to 1. -/
theorem rateLimiter_window (t0 : Nat) (ts : List Nat) (t11 t12 : Nat)
    (hlen : ts.length = 9)
    (hin : ∀ t ∈ ts, t0 ≤ t ∧ t ≤ t0 + windowMs)
    (_h11a : t0 ≤ t11) (h11b : t11 ≤ t0 + windowMs)
    (h12 : t0 + windowMs < t12) :
    rlStep none t0 = (RLOutcome.passed, { count := 1, resetTime := t0 + windowMs }) ∧
    rlRun (some { count := 1, resetTime := t0 + windowMs }) ts =
      (List.replicate 9 RLOutcome.passed,
       some { count := 10, resetTime := t0 + windowMs }) ∧
    rlStep (some { count := 10, resetTime := t0 + windowMs }) t11 =
      (RLOutcome.rejected (t0 + windowMs), { count := 10, resetTime := t0 + windowMs }) ∧
    rlRespond (RLOutcome.rejected (t0 + windowMs)) =
      some { status := 429, message := none,
             error := some "Rate limit exceeded. Please try again later.",
             resetTime := some (t0 + windowMs) } ∧
    rlStep (some { count := 10, resetTime := t0 + windowMs }) t12 =
      (RLOutcome.passed, { count := 1, resetTime := t12 + windowMs }) := by
  refine ⟨?_, ?_, ?_, rfl, ?_⟩
  · rw [rlStep]
    have h1 : ¬ (t0 + windowMs < t0) := by omega
    simp [h1, maxRequests]
  · have hcap : 1 + ts.length ≤ maxRequests := by rw [hlen]; decide
    have h := rlRun_window ts 1 (t0 + windowMs) (fun t ht => (hin t ht).2) hcap
    rw [hlen] at h
    simpa using h
  · rw [rlStep]
    have h1 : ¬ (t0 + windowMs < t11) := by omega
    simp [h1, maxRequests]
  · rw [rlStep]
    simp [h12, maxRequests]

/-- C2 witness: a concrete sequence of eleven in-window requests and one
after the window. -/
theorem rateLimiter_window_witness :
    rlStep (some { count := 10, resetTime := 60000 }) 30 =
      (RLOutcome.rejected 60000, { count := 10, resetTime := 60000 }) ∧
    rlStep (some { count := 10, resetTime := 60000 }) 60001 =
      (RLOutcome.passed, { count := 1, resetTime := 120001 }) := by
  have h := rateLimiter_window 0 [1, 2, 3, 4, 5, 6, 7, 8, 9] 30 60001
    (by decide) (by decide) (by decide) (by decide) (by decide)
  exact ⟨by simpa using h.2.2.1, by simpa using h.2.2.2.2⟩

/-- C9: the search result's total equals the sum of the four category list
lengths, and every returned entry comes from the corresponding database
category and matches the lowercased query as a substring of its
name or path (files), or of its title, its description, or one of its tags
(downloads). -/
theorem searchResources_invariant (query : String) (db : ResourceDb) :
    (searchResources query db).totalResults =
      (searchResources query db).assignments.length +
      (searchResources query db).notes.length +
      (searchResources query db).labManuals.length +
      (searchResources query db).downloads.length ∧
    (∀ f ∈ (searchResources query db).assignments, f ∈ db.assignments ∧
      ((lowerStr query).data <:+: (lowerStr f.name).data ∨
       (lowerStr query).data <:+: (lowerStr f.path).data)) ∧
    (∀ f ∈ (searchResources query db).notes, f ∈ db.notes ∧
      ((lowerStr query).data <:+: (lowerStr f.name).data ∨
       (lowerStr query).data <:+: (lowerStr f.path).data)) ∧
    (∀ f ∈ (searchResources query db).labManuals, f ∈ db.labManuals ∧
      ((lowerStr query).data <:+: (lowerStr f.name).data ∨
       (lowerStr query).data <:+: (lowerStr f.path).data)) ∧
    (∀ d ∈ (searchResources query db).downloads, d ∈ db.downloads ∧
      ((∃ t, d.title = some t ∧ (lowerStr query).data <:+: (lowerStr t).data) ∨
       (∃ t, d.description = some t ∧ (lowerStr query).data <:+: (lowerStr t).data) ∨
       (∃ tags, d.tags = some tags ∧
         ∃ tag ∈ tags, (lowerStr query).data <:+: (lowerStr tag).data))) := by
  refine ⟨rfl, ?_, ?_, ?_, ?_⟩
  · intro f hf
    refine ⟨List.mem_of_mem_filter hf, ?_⟩
    have h2 := List.of_mem_filter hf
    rw [fileMatches, Bool.or_eq_true, jsIncludes_iff, jsIncludes_iff] at h2
    exact h2
  · intro f hf
    refine ⟨List.mem_of_mem_filter hf, ?_⟩
    have h2 := List.of_mem_filter hf
    rw [fileMatches, Bool.or_eq_true, jsIncludes_iff, jsIncludes_iff] at h2
    exact h2
  · intro f hf
    refine ⟨List.mem_of_mem_filter hf, ?_⟩
    have h2 := List.of_mem_filter hf
    rw [fileMatches, Bool.or_eq_true, jsIncludes_iff, jsIncludes_iff] at h2
    exact h2
  · intro d hd
    refine ⟨List.mem_of_mem_filter hd, ?_⟩
    have h2 := List.of_mem_filter hd
    rw [downloadMatches, Bool.or_eq_true, Bool.or_eq_true] at h2
    rcases h2 with (h2 | h2) | h2
    · cases ht : d.title with
      | none => rw [ht] at h2; exact absurd h2 (by simp)
      | some t =>
        rw [ht] at h2
        rw [Bool.and_eq_true, jsIncludes_iff] at h2
        exact Or.inl ⟨t, rfl, h2.2⟩
    · cases hdsc : d.description with
      | none => rw [hdsc] at h2; exact absurd h2 (by simp)
      | some t =>
        rw [hdsc] at h2
        rw [Bool.and_eq_true, jsIncludes_iff] at h2
        exact Or.inr (Or.inl ⟨t, rfl, h2.2⟩)
    · cases htg : d.tags with
      | none => rw [htg] at h2; exact absurd h2 (by simp)
      | some tags =>
        rw [htg] at h2
        rw [List.any_eq_true] at h2
        obtain ⟨tag, hmem, htag⟩ := h2
        rw [jsIncludes_iff] at htag
        exact Or.inr (Or.inr ⟨tags, rfl, tag, hmem, htag⟩)

/-- C9 witness: searching "iot" returns the download tagged "iot"; the
returned entry belongs to the database and matches through a tag. -/
theorem searchResources_invariant_witness :
    iotDownload ∈ sampleDb.downloads ∧
    ((∃ t, iotDownload.title = some t ∧ (lowerStr "iot").data <:+: (lowerStr t).data) ∨
     (∃ t, iotDownload.description = some t ∧ (lowerStr "iot").data <:+: (lowerStr t).data) ∨
     (∃ tags, iotDownload.tags = some tags ∧
       ∃ tag ∈ tags, (lowerStr "iot").data <:+: (lowerStr tag).data)) :=
  (searchResources_invariant "iot" sampleDb).2.2.2.2 iotDownload (by decide)

theorem handleChat_gateway_failure (env : OrchestratorEnv) (messages : List ChatMessage)
    (m : ChatMessage)
    (hfind : messages.reverse.find? (fun msg => msg.role == "user") = some m)
    (hscan : jsStartsWith (jsTrim m.content) "/scan" = false)
    (hdebug : jsStartsWith (jsTrim m.content) "/debug" = false)
    (hgw : env.chatGateway (composeFullPrompt (jsTrim m.content) messages env.db env.nav
      (env.webSearch (jsTrim m.content))) = GatewayOutcome.failure) :
    handleChat env (MessagesField.arr messages) =
      { status := 200,
        message := some { role := "assistant",
                          content := fallbackResponse (jsTrim m.content) },
        error := none, resetTime := none } := by
  simp only [handleChat, hfind, hscan, hdebug, Bool.or_self, Bool.false_eq_true, if_false,
    hgw]

/-- C1 (amended): whenever the LLM Gateway call fails in any way, the
endpoint still replies HTTP 200 with the keyword-matched canned assistant
message; a query containing "hello" yields the greeting template, a query
containing "assignment" and none of the earlier-checked keywords (hello,
hi, help, course, class) yields the assignment template, and a query
matching none of the fallback keywords yields the generic
connection-issues template. -/
theorem chat_fallback_templates (env : OrchestratorEnv) (messages : List ChatMessage)
    (m : ChatMessage)
    (hfind : messages.reverse.find? (fun msg => msg.role == "user") = some m)
    (hscan : jsStartsWith (jsTrim m.content) "/scan" = false)
    (hdebug : jsStartsWith (jsTrim m.content) "/debug" = false)
    (hgw : env.chatGateway (composeFullPrompt (jsTrim m.content) messages env.db env.nav
      (env.webSearch (jsTrim m.content))) = GatewayOutcome.failure) :
    (handleChat env (MessagesField.arr messages)).status = 200 ∧
    (handleChat env (MessagesField.arr messages)).message =
      some { role := "assistant", content := fallbackResponse (jsTrim m.content) } ∧
    (jsIncludes (lowerStr (jsTrim m.content)) "hello" = true →
      fallbackResponse (jsTrim m.content) =
        "Hello! I'm LearnFlow Assistant. How can I help you with your educational needs today?") ∧
    (jsIncludes (lowerStr (jsTrim m.content)) "assignment" = true →
      (∀ k ∈ (["hello", "hi", "help", "course", "class"] : List String),
        jsIncludes (lowerStr (jsTrim m.content)) k = false) →
      fallbackResponse (jsTrim m.content) =
        "For assignment help, please check the specific course page where all assignments are listed with their due dates and requirements.") ∧
    ((∀ k ∈ fallbackKeywords, jsIncludes (lowerStr (jsTrim m.content)) k = false) →
      fallbackResponse (jsTrim m.content) =
        "I'm currently experiencing connection issues with my knowledge base. Please try again later or rephrase your question.") := by
  have hmain := handleChat_gateway_failure env messages m hfind hscan hdebug hgw
  rw [hmain]
  refine ⟨rfl, rfl, ?_, ?_, ?_⟩
  · intro hh
    rw [fallbackResponse]
    simp [hh]
  · intro ha hks
    have h1 := hks "hello" (by simp)
    have h2 := hks "hi" (by simp)
    have h3 := hks "help" (by simp)
    have h4 := hks "course" (by simp)
    have h5 := hks "class" (by simp)
    rw [fallbackResponse]
    simp [h1, h2, h3, h4, h5, ha]
  · intro hks
    have h1 := hks "hello" (by simp [fallbackKeywords])
    have h2 := hks "hi" (by simp [fallbackKeywords])
    have h3 := hks "help" (by simp [fallbackKeywords])
    have h4 := hks "course" (by simp [fallbackKeywords])
    have h5 := hks "class" (by simp [fallbackKeywords])
    have h6 := hks "assignment" (by simp [fallbackKeywords])
    have h7 := hks "homework" (by simp [fallbackKeywords])
    have h8 := hks "resource" (by simp [fallbackKeywords])
    have h9 := hks "material" (by simp [fallbackKeywords])
    rw [fallbackResponse]
    simp [h1, h2, h3, h4, h5, h6, h7, h8, h9]

/-- C1 witness: an unmatched query under a forced Gateway failure gets the
generic connection-issues template over HTTP 200. -/
theorem chat_fallback_templates_witness :
    (handleChat sampleEnv
        (MessagesField.arr [{ role := "user", content := "tell me a story" }])).status = 200 ∧
    (handleChat sampleEnv
        (MessagesField.arr [{ role := "user", content := "tell me a story" }])).message =
      some { role := "assistant",
             content :=
               "I'm currently experiencing connection issues with my knowledge base. Please try again later or rephrase your question." } := by
  have h := chat_fallback_templates sampleEnv
    [{ role := "user", content := "tell me a story" }]
    { role := "user", content := "tell me a story" }
    (by rfl) (by rfl) (by rfl) (by rfl)
  refine ⟨h.1, ?_⟩
  rw [h.2.1, h.2.2.2.2 (by decide)]

/-- C1 counterexample: the query "hello assignment" contains "assignment",
yet the fallback returns the greeting template (the hello/hi branch runs
first), so the claim's assignment clause is false as stated. -/
theorem chat_fallback_counterexample :
    jsIncludes (lowerStr (jsTrim "hello assignment")) "assignment" = true ∧
    (handleChat sampleEnv
        (MessagesField.arr [{ role := "user", content := "hello assignment" }])).status = 200 ∧
    (handleChat sampleEnv
        (MessagesField.arr [{ role := "user", content := "hello assignment" }])).message =
      some { role := "assistant",
             content :=
               "Hello! I'm LearnFlow Assistant. How can I help you with your educational needs today?" } ∧
    ("Hello! I'm LearnFlow Assistant. How can I help you with your educational needs today?" : String) ≠
      "For assignment help, please check the specific course page where all assignments are listed with their due dates and requirements." := by
  exact ⟨by decide, by rfl, by rfl, by decide⟩

/-- C8: a `/scan` or `/debug` command whose scan fails (for example a
nonexistent path) yields HTTP 200 with an assistant message carrying the
"Scan Error" marker, never an error status. -/
theorem scan_error_response (env : OrchestratorEnv) (messages : List ChatMessage)
    (m : ChatMessage) (err : String)
    (hfind : messages.reverse.find? (fun msg => msg.role == "user") = some m)
    (hcmd : jsStartsWith (jsTrim m.content) "/scan" = true ∨
            jsStartsWith (jsTrim m.content) "/debug" = true)
    (hscan : env.scan (scanPathOf (jsTrim m.content)) = ScanOutcome.failure err) :
    (handleChat env (MessagesField.arr messages)).status = 200 ∧
    (handleChat env (MessagesField.arr messages)).message =
      some { role := "assistant", content := "❌ Scan Error: " ++ err } ∧
    ("Scan Error" : String).data <:+: ("❌ Scan Error: " ++ err).data := by
  have hcond : (jsStartsWith (jsTrim m.content) "/scan" ||
      jsStartsWith (jsTrim m.content) "/debug") = true := by
    rcases hcmd with h | h <;> simp [h]
  simp only [handleChat, hfind, hcond, if_true]
  rw [handleScanCommand, hscan]
  refine ⟨rfl, rfl, ?_⟩
  refine ⟨"❌ ".data, ": ".data ++ err.data, ?_⟩
  have hsplit : ("❌ Scan Error: " : String).data =
      "❌ ".data ++ "Scan Error".data ++ ": ".data := by rfl
  rw [string_data_append, hsplit]
  simp [List.append_assoc]

/-- C8 witness: `/scan nonexistent/path` against a failing scan adapter. -/
theorem scan_error_response_witness :
    (handleChat sampleEnv
        (MessagesField.arr [{ role := "user", content := "/scan nonexistent/path" }])).status = 200 ∧
    (handleChat sampleEnv
        (MessagesField.arr [{ role := "user", content := "/scan nonexistent/path" }])).message =
      some { role := "assistant",
             content := "❌ Scan Error: " ++ "ENOENT: no such file or directory" } ∧
    ("Scan Error" : String).data <:+:
      ("❌ Scan Error: " ++ "ENOENT: no such file or directory").data :=
  scan_error_response sampleEnv
    [{ role := "user", content := "/scan nonexistent/path" }]
    { role := "user", content := "/scan nonexistent/path" }
    "ENOENT: no such file or directory"
    (by rfl) (Or.inl (by rfl)) (by rfl)


theorem prevAfter_eq (prev : Option Char) : ∀ l : List Char,
    prevAfter prev l = (match l.getLast? with | some c => some c | none => prev)
  | [] => rfl
  | [x] => by rw [prevAfter, prevAfter]; simp
  | x :: y :: xs => by
    rw [prevAfter, prevAfter_eq (some x) (y :: xs)]
    simp only [List.getLast?_cons_cons]
    cases hg : (y :: xs).getLast? with
    | some c => rfl
    | none => simp at hg

theorem map_toLower_two (ord : List Char) (a b : Char)
    (h : ord.map Char.toLower = [a, b]) :
    ∃ c1 c2, ord = [c1, c2] ∧ c1.toLower = a ∧ c2.toLower = b := by
  cases ord with
  | nil => simp at h
  | cons c1 t =>
    cases t with
    | nil => simp at h
    | cons c2 t2 =>
      cases t2 with
      | nil =>
        simp only [List.map_cons, List.map_nil, List.cons.injEq, and_true] at h
        exact ⟨c1, c2, rfl, h.1, h.2⟩
      | cons u us => simp at h

theorem map_toLower_pat (c1 c2 a b : Char) (h1 : c1.toLower = a) (h2 : c2.toLower = b)
    (ha : a.toLower = a) (hb : b.toLower = b) :
    [c1, c2].map Char.toLower = [a, b].map Char.toLower := by
  simp [h1, h2, ha, hb]

theorem stripCI_two_head_ne (p : Char) (ps : List Char) (c1 c2 : Char) (rest : List Char)
    (h : (c1.toLower == p.toLower) = false) :
    stripCI (p :: ps) ([c1, c2] ++ rest) = none := by
  rw [List.cons_append, stripCI, if_neg (by rw [h]; simp)]

theorem stripOrd_of (ord rest : List Char) (h : isOrdSuffix ord) :
    stripOrd (ord ++ rest) = some rest := by
  rcases h with h | h | h | h
  · rw [stripOrd, stripCI_append "st".data ord rest (by rw [h]; rfl)]
  · obtain ⟨c1, c2, rfl, h1, h2⟩ := map_toLower_two ord 'n' 'd' h
    have hst := stripCI_two_head_ne 's' "t".data c1 c2 rest (by rw [h1]; decide)
    rw [stripOrd]
    simp only [hst]
    rw [stripCI_append "nd".data [c1, c2] rest
      (map_toLower_pat c1 c2 'n' 'd' h1 h2 (by decide) (by decide))]
  · obtain ⟨c1, c2, rfl, h1, h2⟩ := map_toLower_two ord 'r' 'd' h
    have hst := stripCI_two_head_ne 's' "t".data c1 c2 rest (by rw [h1]; decide)
    have hnd := stripCI_two_head_ne 'n' "d".data c1 c2 rest (by rw [h1]; decide)
    rw [stripOrd]
    simp only [hst, hnd]
    rw [stripCI_append "rd".data [c1, c2] rest
      (map_toLower_pat c1 c2 'r' 'd' h1 h2 (by decide) (by decide))]
  · obtain ⟨c1, c2, rfl, h1, h2⟩ := map_toLower_two ord 't' 'h' h
    have hst := stripCI_two_head_ne 's' "t".data c1 c2 rest (by rw [h1]; decide)
    have hnd := stripCI_two_head_ne 'n' "d".data c1 c2 rest (by rw [h1]; decide)
    have hrd := stripCI_two_head_ne 'r' "d".data c1 c2 rest (by rw [h1]; decide)
    rw [stripOrd]
    simp only [hst, hnd, hrd]
    rw [stripCI_append "th".data [c1, c2] rest
      (map_toLower_pat c1 c2 't' 'h' h1 h2 (by decide) (by decide))]

theorem stripOrd_elim (l r : List Char) (h : stripOrd l = some r) :
    ∃ ord, l = ord ++ r ∧ isOrdSuffix ord := by
  rw [stripOrd] at h
  cases h1 : stripCI "st".data l with
  | some r1 =>
    simp only [h1, Option.some_inj] at h
    subst h
    obtain ⟨pre, hp, hm⟩ := stripCI_some "st".data l r1 h1
    exact ⟨pre, hp, Or.inl (by rw [hm]; rfl)⟩
  | none =>
    simp only [h1] at h
    cases h2 : stripCI "nd".data l with
    | some r2 =>
      simp only [h2, Option.some_inj] at h
      subst h
      obtain ⟨pre, hp, hm⟩ := stripCI_some "nd".data l r2 h2
      exact ⟨pre, hp, Or.inr (Or.inl (by rw [hm]; rfl))⟩
    | none =>
      simp only [h2] at h
      cases h3 : stripCI "rd".data l with
      | some r3 =>
        simp only [h3, Option.some_inj] at h
        subst h
        obtain ⟨pre, hp, hm⟩ := stripCI_some "rd".data l r3 h3
        exact ⟨pre, hp, Or.inr (Or.inr (Or.inl (by rw [hm]; rfl)))⟩
      | none =>
        simp only [h3] at h
        obtain ⟨pre, hp, hm⟩ := stripCI_some "th".data l r h
        exact ⟨pre, hp, Or.inr (Or.inr (Or.inr (by rw [hm]; rfl)))⟩

theorem semWordTail_of (sw post : List Char)
    (hsw : sw.map Char.toLower = "sem".data ∨ sw.map Char.toLower = "semester".data)
    (hpost : match post with | [] => True | c :: _ => isWordChar c = false) :
    semWordTail (sw ++ post) = true := by
  rcases hsw with hsw | hsw
  · rw [semWordTail]
    simp only [stripCI_append "sem".data sw post (by rw [hsw]; rfl)]
    cases hest : stripCI "ester".data post with
    | some rest2 => simp [bAfter_of post hpost]
    | none => simp [bAfter_of post hpost]
  · obtain ⟨a, b, rfl, ha, hb⟩ : ∃ a b, sw = a ++ b ∧
        a.map Char.toLower = "sem".data ∧ b.map Char.toLower = "ester".data := by
      have h2 : sw.map Char.toLower = "sem".data ++ "ester".data := by rw [hsw]; rfl
      rw [List.map_eq_append_iff] at h2
      obtain ⟨s, t, h3, h4, h5⟩ := h2
      exact ⟨s, t, h3, h4, h5⟩
    rw [List.append_assoc, semWordTail]
    simp only [stripCI_append "sem".data a (b ++ post) (by rw [ha]; rfl)]
    simp only [stripCI_append "ester".data b post (by rw [hb]; rfl)]
    simp [bAfter_of post hpost]

theorem semWordTail_elim (l : List Char) (h : semWordTail l = true) :
    ∃ sw post, l = sw ++ post ∧
      (sw.map Char.toLower = "sem".data ∨ sw.map Char.toLower = "semester".data) ∧
      bAfter post = true := by
  rw [semWordTail] at h
  cases h1 : stripCI "sem".data l with
  | none => simp only [h1] at h; cases h
  | some rest =>
    simp only [h1] at h
    obtain ⟨semPre, hsp, hsm⟩ := stripCI_some "sem".data l rest h1
    cases h2 : stripCI "ester".data rest with
    | none =>
      simp only [h2] at h
      exact ⟨semPre, rest, hsp, Or.inl (by rw [hsm]; rfl), h⟩
    | some rest2 =>
      simp only [h2, Bool.or_eq_true] at h
      rcases h with h | h
      · obtain ⟨estPre, hsp2, hest⟩ := stripCI_some "ester".data rest rest2 h2
        refine ⟨semPre ++ estPre, rest2, ?_, Or.inr ?_, h⟩
        · rw [hsp, hsp2, List.append_assoc]
        · rw [List.map_append, hsm, hest]; rfl
      · exact ⟨semPre, rest, hsp, Or.inl (by rw [hsm]; rfl), h⟩

theorem sem_head_not_space (sw : List Char)
    (hsw : sw.map Char.toLower = "sem".data ∨ sw.map Char.toLower = "semester".data) :
    ∃ s0 sr, sw = s0 :: sr ∧ isSpaceChar s0 = false := by
  have hhead : ∃ s0 sr, sw = s0 :: sr ∧ s0.toLower = 's' := by
    rcases hsw with h | h <;>
    · cases sw with
      | nil => simp at h
      | cons s0 sr =>
        refine ⟨s0, sr, rfl, ?_⟩
        have h0 : (List.map Char.toLower (s0 :: sr)).head? = some 's' :=
          congrArg List.head? h
        simpa using h0
  obtain ⟨s0, sr, rfl, hs⟩ := hhead
  exact ⟨s0, sr, rfl, not_space_of_toLower_s s0 hs⟩

theorem semSpaceTail_of (ws sw post : List Char)
    (hws : ws ≠ []) (hwsall : ∀ c ∈ ws, isSpaceChar c = true)
    (hsw : sw.map Char.toLower = "sem".data ∨ sw.map Char.toLower = "semester".data)
    (hpost : match post with | [] => True | c :: _ => isWordChar c = false) :
    semSpaceTail (ws ++ (sw ++ post)) = true := by
  obtain ⟨w, ws2, rfl⟩ : ∃ w ws2, ws = w :: ws2 := by
    cases ws with
    | nil => exact absurd rfl hws
    | cons w ws2 => exact ⟨w, ws2, rfl⟩
  rw [List.cons_append]
  rw [semSpaceTail]
  obtain ⟨s0, sr, hsweq, hs0⟩ := sem_head_not_space sw hsw
  have hdrop : (ws2 ++ (sw ++ post)).dropWhile isSpaceChar = sw ++ post := by
    apply dropWhile_all_append
    · exact fun c hc => hwsall c (by simp [hc])
    · rw [hsweq, List.cons_append]
      exact hs0
  rw [hdrop, semWordTail_of sw post hsw hpost, hwsall w (by simp)]
  rfl

theorem semSpaceTail_elim (l : List Char) (h : semSpaceTail l = true) :
    ∃ ws rest2, l = ws ++ rest2 ∧ ws ≠ [] ∧ (∀ c ∈ ws, isSpaceChar c = true) ∧
      semWordTail rest2 = true := by
  cases l with
  | nil => rw [semSpaceTail] at h; cases h
  | cons c rest =>
    rw [semSpaceTail, Bool.and_eq_true] at h
    refine ⟨c :: rest.takeWhile isSpaceChar, rest.dropWhile isSpaceChar, ?_, by simp, ?_, h.2⟩
    · rw [List.cons_append, List.takeWhile_append_dropWhile]
    · intro x hx
      rcases List.mem_cons.mp hx with rfl | hx
      · exact h.1
      · exact List.mem_takeWhile_imp hx

theorem semAfterDigit_of (ord ws sw post : List Char)
    (hord : ord = [] ∨ isOrdSuffix ord)
    (hws : ws ≠ []) (hwsall : ∀ c ∈ ws, isSpaceChar c = true)
    (hsw : sw.map Char.toLower = "sem".data ∨ sw.map Char.toLower = "semester".data)
    (hpost : match post with | [] => True | c :: _ => isWordChar c = false) :
    semAfterDigit (ord ++ (ws ++ (sw ++ post))) = true := by
  rcases hord with rfl | hord
  · rw [List.nil_append, semAfterDigit, Bool.or_eq_true]
    exact Or.inr (semSpaceTail_of ws sw post hws hwsall hsw hpost)
  · rw [semAfterDigit]
    simp only [stripOrd_of ord (ws ++ (sw ++ post)) hord, Bool.or_eq_true]
    exact Or.inl (semSpaceTail_of ws sw post hws hwsall hsw hpost)

theorem semAfterDigit_elim (l : List Char) (h : semAfterDigit l = true) :
    ∃ ord rest, l = ord ++ rest ∧ (ord = [] ∨ isOrdSuffix ord) ∧
      semSpaceTail rest = true := by
  rw [semAfterDigit, Bool.or_eq_true] at h
  rcases h with h | h
  · cases ho : stripOrd l with
    | none => simp only [ho] at h; cases h
    | some r =>
      simp only [ho] at h
      obtain ⟨ord, hsplit, hord⟩ := stripOrd_elim l r ho
      exact ⟨ord, r, hsplit, Or.inr hord, h⟩
  · exact ⟨[], l, by rw [List.nil_append], Or.inl rfl, h⟩

theorem semAttempt_of (prev : Option Char) (d : Char) (rest : List Char)
    (hb : isBoundary prev (some d) = true)
    (hd : isDigit09 d = true)
    (ha : semAfterDigit rest = true) :
    semAttempt prev (d :: rest) = some (d.toNat - 48) := by
  simp only [semAttempt]
  simp [hb, hd, ha]

theorem semAttempt_elim (prev : Option Char) (l : List Char) (n : Nat)
    (h : semAttempt prev l = some n) :
    ∃ d rest, l = d :: rest ∧ isBoundary prev (some d) = true ∧ isDigit09 d = true ∧
      semAfterDigit rest = true ∧ n = d.toNat - 48 := by
  cases l with
  | nil => simp [semAttempt] at h
  | cons d rest =>
    simp only [semAttempt] at h
    by_cases hc : (isBoundary prev (some d) && isDigit09 d && semAfterDigit rest) = true
    · rw [if_pos hc] at h
      simp only [Bool.and_eq_true] at hc
      simp only [Option.some_inj] at h
      exact ⟨d, rest, rfl, hc.1.1, hc.1.2, hc.2, h.symm⟩
    · rw [if_neg hc] at h
      cases h

theorem semesterMatch_complete (q : String) (n : Nat) (h : SemOccurrence q n) :
    (semesterMatch q).isSome = true := by
  obtain ⟨pre, d, ord, ws, sw, post, heq, hd, hn, hpre, hord, hws, hwsall, hsw, hpost⟩ := h
  have hbnd : isBoundary (prevAfter none pre) (some d) = true := by
    rw [isBoundary, prevAfter_eq]
    cases hg : pre.getLast? with
    | none =>
      rw [isWordOpt, isWordOpt, isDigit09_word d hd]
      rfl
    | some c =>
      rw [hg] at hpre
      rw [isWordOpt, isWordOpt, isDigit09_word d hd, hpre]
      rfl
  have hatt : semAttempt (prevAfter none pre) (d :: (ord ++ ws ++ sw ++ post)) =
      some (d.toNat - 48) := by
    apply semAttempt_of (prevAfter none pre) d _ hbnd hd
    have hx := semAfterDigit_of ord ws sw post hord hws hwsall hsw hpost
    simpa [List.append_assoc] using hx
  rw [semesterMatch, heq]
  exact scanFind_isSome semAttempt pre none d (ord ++ ws ++ sw ++ post)
    (by rw [hatt]; rfl)

theorem semesterMatch_sound (q : String) (n : Nat) (h : semesterMatch q = some n) :
    SemOccurrence q n := by
  rw [semesterMatch] at h
  obtain ⟨xs, ys, hsplit, hatt⟩ := scanFind_some_elim semAttempt q.data none n h
  obtain ⟨d, rest, hys, hb, hd, ha, hn⟩ := semAttempt_elim (prevAfter none xs) ys n hatt
  obtain ⟨ord, rest1, hrest, hord, hst⟩ := semAfterDigit_elim rest ha
  obtain ⟨ws, rest2, hr1, hwsne, hwsall, hwt⟩ := semSpaceTail_elim rest1 hst
  obtain ⟨sw, post, hr2, hsw, hba⟩ := semWordTail_elim rest2 hwt
  refine ⟨xs, d, ord, ws, sw, post, ?_, hd, hn, ?_, hord, hwsne, hwsall, hsw,
    bAfter_elim post hba⟩
  · rw [hsplit, hys, hrest, hr1, hr2]
    simp [List.append_assoc]
  · rw [isBoundary, prevAfter_eq] at hb
    cases hg : xs.getLast? with
    | none => trivial
    | some c =>
      rw [hg, isWordOpt, isWordOpt, isDigit09_word d hd] at hb
      simpa using hb

/-- C7 (amended): the semester extractor matches exactly when the query
contains, at a word boundary, a digit 0-9 followed by an optional ordinal
suffix (st/nd/rd/th), at least one whitespace character, and the word
"sem" or "semester" ending at a word boundary, returning the digit's
value; in particular "3rd semester" yields 3 and "3 sem" also matches and
yields 3. -/
theorem semester_extractor_characterization (q : String) :
    ((semesterMatch q).isSome = true ↔ ∃ n, SemOccurrence q n) ∧
    (∀ n, semesterMatch q = some n → SemOccurrence q n) ∧
    semesterMatch "3rd semester" = some 3 ∧
    semesterMatch "3 sem" = some 3 := by
  refine ⟨⟨?_, ?_⟩, ?_, by rfl, by rfl⟩
  · intro h
    obtain ⟨n, hn⟩ := Option.isSome_iff_exists.mp h
    exact ⟨n, semesterMatch_sound q n hn⟩
  · rintro ⟨n, hn⟩
    exact semesterMatch_complete q n hn
  · intro n h
    exact semesterMatch_sound q n h

/-- C7 witness: "3 sem" matches with value 3, and the match corresponds to
a concrete occurrence of the pattern. -/
theorem semester_extractor_characterization_witness :
    semesterMatch "3 sem" = some 3 ∧ SemOccurrence "3 sem" 3 :=
  ⟨(semester_extractor_characterization "3 sem").2.2.2,
   (semester_extractor_characterization "3 sem").2.1 3 (by rfl)⟩

/-- C7 counterexample: the extractor matches "0 sem" and returns 0, though
the claim restricts matches to a single digit 1-9; "0 sem" contains no
digit 1-9 occurrence of the pattern. -/
theorem semester_extractor_counterexample :
    semesterMatch "0 sem" = some 0 ∧ ¬ ∃ n, SemOccurrence19 "0 sem" n := by
  refine ⟨by rfl, ?_⟩
  rintro ⟨n, ⟨pre, d, ord, ws, sw, post, heq, hd, hn, -, -, -, -, -, -⟩, h1, -⟩
  have hdmem : d ∈ "0 sem".data := by
    rw [heq]
    exact List.mem_append_right pre (List.mem_cons_self d _)
  have hcases : d = '0' ∨ d = ' ' ∨ d = 's' ∨ d = 'e' ∨ d = 'm' := by
    simpa using hdmem
  rcases hcases with rfl | rfl | rfl | rfl | rfl
  · rw [hn] at h1
    exact absurd h1 (by decide)
  · exact absurd hd (by decide)
  · exact absurd hd (by decide)
  · exact absurd hd (by decide)
  · exact absurd hd (by decide)

theorem isInfix_append_left {l m : List Char} (n : List Char) (h : l <:+: m) :
    l <:+: m ++ n := by
  obtain ⟨s, t, hst⟩ := h
  exact ⟨s, t ++ n, by rw [← hst]; simp [List.append_assoc]⟩

theorem isInfix_append_right {l m : List Char} (n : List Char) (h : l <:+: m) :
    l <:+: n ++ m := by
  obtain ⟨s, t, hst⟩ := h
  exact ⟨n ++ s, t, by rw [← hst]; simp [List.append_assoc]⟩

theorem str_infix_left (l : List Char) (s t : String) (h : l <:+: s.data) :
    l <:+: (s ++ t).data := by
  rw [string_data_append]
  exact isInfix_append_left t.data h

theorem str_infix_right (l : List Char) (s t : String) (h : l <:+: t.data) :
    l <:+: (s ++ t).data := by
  rw [string_data_append]
  exact isInfix_append_right s.data h

theorem list_len2 (l : List Char) (h : l.length = 2) : ∃ a b, l = [a, b] := by
  cases l with
  | nil => simp at h
  | cons a t =>
    cases t with
    | nil => simp at h
    | cons b t2 =>
      cases t2 with
      | nil => exact ⟨a, b, rfl⟩
      | cons c t3 => simp at h

theorem list_len3 (l : List Char) (h : l.length = 3) : ∃ a b c, l = [a, b, c] := by
  cases l with
  | nil => simp at h
  | cons a t =>
    cases t with
    | nil => simp at h
    | cons b t2 =>
      cases t2 with
      | nil => simp at h
      | cons c t3 =>
        cases t3 with
        | nil => exact ⟨a, b, c, rfl⟩
        | cons d t4 => simp at h

theorem headOpt_cons (c : Char) (l : List Char) : headOpt (c :: l) = some c := rfl

theorem isWordOpt_some (c : Char) : isWordOpt (some c) = isWordChar c := rfl

theorem courseTail_of (ws digits post : List Char)
    (hws : ∀ c ∈ ws, isSpaceChar c = true)
    (hdlen : digits.length = 3) (hdig : ∀ c ∈ digits, isDigit09 c = true)
    (hpost : match post with | [] => True | c :: _ => isWordChar c = false) :
    courseTail (ws ++ (digits ++ post)) = some digits := by
  obtain ⟨d1, d2, d3, rfl⟩ := list_len3 digits hdlen
  have hdrop : (ws ++ ([d1, d2, d3] ++ post)).dropWhile isSpaceChar =
      [d1, d2, d3] ++ post := by
    apply dropWhile_all_append _ _ _ hws
    rw [List.cons_append]
    exact isDigit09_not_space d1 (hdig d1 (by simp))
  rw [courseTail, hdrop]
  simp only [List.cons_append, List.nil_append]
  simp [hdig d1 (by simp), hdig d2 (by simp), hdig d3 (by simp), bAfter_of post hpost]

theorem courseAttempt3_cons (a b c : Char) (rest : List Char) :
    courseAttempt3 (a :: b :: c :: rest) =
      if isLetterAZ a && isLetterAZ b && isLetterAZ c then
        (match courseTail rest with
         | some ds => some ([a, b, c], ds)
         | none => none)
      else none := rfl

theorem courseAttempt2_cons (a b : Char) (rest : List Char) :
    courseAttempt2 (a :: b :: rest) =
      if isLetterAZ a && isLetterAZ b then
        (match courseTail rest with
         | some ds => some ([a, b], ds)
         | none => none)
      else none := rfl

theorem courseAttempt_of (prev : Option Char) (letters ws digits post : List Char)
    (hprev : isWordOpt prev = false)
    (hlen : letters.length = 2 ∨ letters.length = 3)
    (hlet : ∀ c ∈ letters, isLetterAZ c = true)
    (hws : ∀ c ∈ ws, isSpaceChar c = true)
    (hdlen : digits.length = 3) (hdig : ∀ c ∈ digits, isDigit09 c = true)
    (hpost : match post with | [] => True | c :: _ => isWordChar c = false) :
    courseAttempt prev (letters ++ (ws ++ (digits ++ post))) = some (letters, digits) := by
  have hct := courseTail_of ws digits post hws hdlen hdig hpost
  rcases hlen with hlen | hlen
  · obtain ⟨a, b, rfl⟩ := list_len2 letters hlen
    have ha := hlet a (by simp)
    have hb := hlet b (by simp)
    have hbnd : isBoundary prev (headOpt ([a, b] ++ (ws ++ (digits ++ post)))) = true := by
      rw [List.cons_append, headOpt_cons, isBoundary, hprev, isWordOpt_some,
        isLetterAZ_word a ha]
      rfl
    have hl : [a, b] ++ (ws ++ (digits ++ post)) = a :: b :: (ws ++ (digits ++ post)) := by
      simp
    have h3 : courseAttempt3 (a :: b :: (ws ++ (digits ++ post))) = none := by
      cases ws with
      | nil =>
        obtain ⟨d1, d2, d3, rfl⟩ := list_len3 digits hdlen
        have hd1 := isDigit09_not_letter d1 (hdig d1 (by simp))
        have hexp : ([] : List Char) ++ ([d1, d2, d3] ++ post) =
            d1 :: d2 :: d3 :: post := by simp
        rw [hexp, courseAttempt3_cons]
        simp [hd1]
      | cons w ws2 =>
        have hw := isSpaceChar_not_letter w (hws w (by simp))
        have hexp : (w :: ws2) ++ (digits ++ post) = w :: (ws2 ++ (digits ++ post)) := by
          simp
        rw [hexp, courseAttempt3_cons]
        simp [hw]
    have h2 : courseAttempt2 (a :: b :: (ws ++ (digits ++ post))) = some ([a, b], digits) := by
      rw [courseAttempt2_cons]
      simp [ha, hb, hct]
    rw [courseAttempt, hl, if_pos (hl ▸ hbnd)]
    simp only [h3, h2]
  · obtain ⟨a, b, c, rfl⟩ := list_len3 letters hlen
    have ha := hlet a (by simp)
    have hb := hlet b (by simp)
    have hc := hlet c (by simp)
    have hbnd : isBoundary prev (headOpt ([a, b, c] ++ (ws ++ (digits ++ post)))) = true := by
      rw [List.cons_append, headOpt_cons, isBoundary, hprev, isWordOpt_some,
        isLetterAZ_word a ha]
      rfl
    have hl : [a, b, c] ++ (ws ++ (digits ++ post)) =
        a :: b :: c :: (ws ++ (digits ++ post)) := by simp
    have h3 : courseAttempt3 (a :: b :: c :: (ws ++ (digits ++ post))) =
        some ([a, b, c], digits) := by
      rw [courseAttempt3_cons]
      simp [ha, hb, hc, hct]
    rw [courseAttempt, hl, if_pos (hl ▸ hbnd)]
    simp only [h3]

theorem rawCourseMatch_complete (q : String) (letters digits : List Char)
    (h : CourseOccurrence q letters digits) :
    (rawCourseMatch q).isSome = true := by
  obtain ⟨pre, post, ws, heq, hlen, hlet, hws, hdlen, hdig, hpre, hpost⟩ := h
  obtain ⟨a, lt, rfl⟩ : ∃ a lt, letters = a :: lt := by
    cases letters with
    | nil => rcases hlen with hl | hl <;> simp at hl
    | cons a lt => exact ⟨a, lt, rfl⟩
  have hprev : isWordOpt (prevAfter none pre) = false := by
    rw [prevAfter_eq]
    cases hg : pre.getLast? with
    | none => rfl
    | some c =>
      rw [hg] at hpre
      exact hpre
  have hatt := courseAttempt_of (prevAfter none pre) (a :: lt) ws digits post hprev
    hlen hlet hws hdlen hdig hpost
  rw [rawCourseMatch, heq]
  have hsplit : pre ++ (a :: lt) ++ ws ++ digits ++ post =
      pre ++ (a :: (lt ++ (ws ++ (digits ++ post)))) := by
    simp [List.append_assoc]
  rw [hsplit]
  apply scanFind_isSome courseAttempt pre none a (lt ++ (ws ++ (digits ++ post)))
  have hform : (a :: lt) ++ (ws ++ (digits ++ post)) =
      a :: (lt ++ (ws ++ (digits ++ post))) := List.cons_append a lt _
  rw [← hform, hatt]
  rfl

theorem lookup_courseDatabase_key (code : String) (info : CourseInfo)
    (h : courseDatabase.lookup code = some info) :
    code = "CHB101" ∨ code = "ITC101" ∨ code = "CSE201" := by
  by_cases h1 : code = "CHB101"
  · exact Or.inl h1
  by_cases h2 : code = "ITC101"
  · exact Or.inr (Or.inl h2)
  by_cases h3 : code = "CSE201"
  · exact Or.inr (Or.inr h3)
  exfalso
  rw [courseDatabase] at h
  have e1 : (code == "CHB101") = false := beq_eq_false_iff_ne.mpr h1
  have e2 : (code == "ITC101") = false := beq_eq_false_iff_ne.mpr h2
  have e3 : (code == "CSE201") = false := beq_eq_false_iff_ne.mpr h3
  simp [List.lookup, e1, e2, e3] at h

theorem name_infix_prompt (q : String) (code : String) (info : CourseInfo)
    (hx : extractCourseCode q = some code) (hi : getCourseInfo code = some info)
    (messages : List ChatMessage) (db : ResourceDb) (nav : NavTable) (web : WebOutcome) :
    info.name.data <:+: (composeFullPrompt q messages db nav web).data := by
  simp only [composeFullPrompt, composeSystemMessage, hx, hi]
  apply str_infix_left
  apply str_infix_left
  apply str_infix_left
  apply str_infix_left
  apply str_infix_left
  apply str_infix_left
  apply str_infix_left
  apply str_infix_left
  apply str_infix_right
  apply str_infix_left
  apply str_infix_left
  apply str_infix_left
  apply str_infix_right
  exact List.infix_rfl

/-- C3 (amended): the course-code extractor acts on the leftmost
word-bounded pattern occurrence: a query containing a word-bounded
occurrence of the pattern always produces a raw match; when the leftmost
match's code (uppercased, whitespace removed) is present in the course
table the extractor returns exactly that code, and when it is absent the
extractor returns no course; and whenever a known code is extracted, the
composed prompt text contains that course's name. -/
theorem course_code_extraction (q : String) (letters digits : List Char)
    (hocc : CourseOccurrence q letters digits) :
    (rawCourseMatch q).isSome = true ∧
    (∀ L D, rawCourseMatch q = some (L, D) →
      ((courseDatabase.lookup (upperStr (String.mk (L ++ D)))).isSome = true →
        extractCourseCode q = some (upperStr (String.mk (L ++ D)))) ∧
      ((courseDatabase.lookup (upperStr (String.mk (L ++ D)))).isSome = false →
        extractCourseCode q = none)) ∧
    (∀ code, extractCourseCode q = some code →
      ∃ info, getCourseInfo code = some info ∧
        ∀ (messages : List ChatMessage) (db : ResourceDb) (nav : NavTable)
          (web : WebOutcome),
          info.name.data <:+: (composeFullPrompt q messages db nav web).data) := by
  refine ⟨rawCourseMatch_complete q letters digits hocc, ?_, ?_⟩
  · intro L D hm
    constructor
    · intro hl
      simp only [extractCourseCode, hm]
      simp [hl]
    · intro hl
      simp only [extractCourseCode, hm]
      simp [hl]
  · intro code hcode
    cases hm : rawCourseMatch q with
    | none =>
      simp only [extractCourseCode, hm] at hcode
      exact Option.noConfusion hcode
    | some m =>
      simp only [extractCourseCode, hm] at hcode
      by_cases hl : (courseDatabase.lookup (upperStr (String.mk (m.1 ++ m.2)))).isSome = true
      · rw [if_pos hl] at hcode
        simp only [Option.some_inj] at hcode
        obtain ⟨info, hinfo⟩ := Option.isSome_iff_exists.mp hl
        rw [hcode] at hinfo
        have hkey := lookup_courseDatabase_key code info hinfo
        have hup : upperStr code = code := by
          rcases hkey with rfl | rfl | rfl <;> rfl
        have hgci : getCourseInfo code = some info := by
          rw [getCourseInfo, hup]
          exact hinfo
        have hx : extractCourseCode q = some code := by
          simp only [extractCourseCode, hm]
          rw [if_pos hl, hcode]
        exact ⟨info, hgci, fun messages db nav web =>
          name_infix_prompt q code info hx hgci messages db nav web⟩
      · rw [if_neg hl] at hcode
        cases hcode

/-- C3 witness: "explain CHB 101 basics" extracts CHB101 and the composed
prompt contains the course name. -/
theorem course_code_extraction_witness :
    extractCourseCode "explain CHB 101 basics" = some "CHB101" ∧
    ∃ info, getCourseInfo "CHB101" = some info ∧
      info.name.data <:+:
        (composeFullPrompt "explain CHB 101 basics" [] emptyDb emptyNav
          WebOutcome.failure).data := by
  have hocc : CourseOccurrence "explain CHB 101 basics" "CHB".data "101".data :=
    ⟨"explain ".data, " basics".data, " ".data, by rfl, Or.inr (by decide), by decide,
      by decide, by decide, by decide, (show isWordChar ' ' = false by decide),
      (show isWordChar ' ' = false by decide)⟩
  have h := course_code_extraction "explain CHB 101 basics" "CHB".data "101".data hocc
  have hm : rawCourseMatch "explain CHB 101 basics" = some ("CHB".data, "101".data) := by
    rfl
  have hx0 := (h.2.1 "CHB".data "101".data hm).1 (by rfl)
  have hup : upperStr (String.mk ("CHB".data ++ "101".data)) = "CHB101" := by rfl
  rw [hup] at hx0
  refine ⟨hx0, ?_⟩
  obtain ⟨info, hi, hp⟩ := h.2.2 "CHB101" hx0
  exact ⟨info, hi, hp [] emptyDb emptyNav WebOutcome.failure⟩

/-- C3 counterexample: "XYZ101 CHB101" contains the in-table code CHB101
as a word-bounded pattern occurrence and as a plain substring, yet the
extractor returns no course, because the leftmost pattern match XYZ101 is
absent from the table. -/
theorem course_code_counterexample :
    jsIncludes "XYZ101 CHB101" "CHB101" = true ∧
    CourseOccurrence "XYZ101 CHB101" "CHB".data "101".data ∧
    (courseDatabase.lookup "CHB101").isSome = true ∧
    extractCourseCode "XYZ101 CHB101" = none := by
  refine ⟨by decide, ?_, by rfl, by rfl⟩
  exact ⟨"XYZ101 ".data, [], [], by rfl, Or.inr (by decide), by decide, by decide,
    by decide, by decide, (show isWordChar ' ' = false by decide), trivial⟩

end LearnFlow
